import Mathlib

set_option maxRecDepth 4000

/-!
Verification development for the pdbparser repository (a Python reader of
Microsoft PDB version 7 debug-information files).  The Python sources under
src/pdbparser are shallowly embedded below: pure functions become Lean
functions, Python exceptions become an explicit PyErr error type threaded
through Except, Python machine integers (which are unbounded) become Int or
Nat, byte streams become List Nat, and the insertion-ordered Python dict
becomes an association list with first-key-wins lookup and update-in-place
insertion.  Negative list indexing wraps from the end exactly as in Python.
-/

namespace PdbParse

/-- Exceptions of the Python runtime that the embedded code paths can raise. -/
inductive PyErr where
  | indexError
  | keyError
  | attributeError
  | notImplementedError
  | valueError
  | zeroDivisionError
  | typeError
  | outOfFuel
  deriving DecidableEq, Repr

/-- Decidable equality of parse and evaluation outcomes, used to state
    concrete scenarios. -/
instance [DecidableEq ε] [DecidableEq α] : DecidableEq (Except ε α) :=
  fun a b =>
  match a, b with
  | .ok x, .ok y =>
    if h : x = y then .isTrue (by rw [h]) else .isFalse (fun hc => h (Except.ok.inj hc))
  | .error x, .error y =>
    if h : x = y then .isTrue (by rw [h])
    else .isFalse (fun hc => h (Except.error.inj hc))
  | .ok _, .error _ => .isFalse (fun hc => Except.noConfusion hc)
  | .error _, .ok _ => .isFalse (fun hc => Except.noConfusion hc)

/-- Python list indexing l[i] for a nonnegative index: IndexError when i is
    out of range. -/
def pyGet (l : List α) (i : Nat) : Except PyErr α :=
  if h : i < l.length then .ok (l.get ⟨i, h⟩) else .error .indexError

/-- Python list indexing l[i] for a possibly negative index: a negative index
    wraps from the end of the list (l[-1] is the last element); IndexError
    when the effective position is out of range. -/
def pyGetI (l : List α) (i : Int) : Except PyErr α :=
  if 0 ≤ i then pyGet l i.toNat
  else
    let j : Int := (l.length : Int) + i
    if 0 ≤ j then pyGet l j.toNat else .error .indexError

/-- Python dict insertion d[k] = v: if the key is already present its value is
    updated in place (the key keeps its original position), otherwise the new
    pair is appended.  This models the insertion-ordered Python dict. -/
def pyDictInsert [DecidableEq κ] (d : List (κ × α)) (k : κ) (v : α) : List (κ × α) :=
  if d.any (fun p => p.1 = k) then
    d.map (fun p => if p.1 = k then (k, v) else p)
  else
    d ++ [(k, v)]

/-- Python dict lookup d.get(k): keys are unique by construction, so the first
    match is the binding. -/
def pyDictGet [DecidableEq κ] (d : List (κ × α)) (k : κ) : Option α :=
  (d.find? (fun p => p.1 = k)).map (fun p => p.2)

/-- One loop iteration bound for the bisect binary search; the fuel starts at
    the list length, which the width of the search interval never exceeds, so
    the fuelled loop computes exactly what the while loop of the Python
    standard library computes. -/
def bisectLoop (a : List Nat) (x : Nat) : Nat → Nat → Nat → Nat
  | 0, lo, _ => lo
  | fuel + 1, lo, hi =>
    if lo < hi then
      let mid := (lo + hi) / 2
      if x < a.getD mid 0 then bisectLoop a x fuel lo mid
      else bisectLoop a x fuel (mid + 1) hi
    else lo

/-- bisect.bisect from the Python standard library (an alias of bisect_right):
    binary search returning the insertion point to the right of any entries
    equal to x. -/
def pyBisect (a : List Nat) (x : Nat) : Nat := bisectLoop a x a.length 0 a.length

/-!
Embedding of src/pdbparser/omap.py.  OMAP_ENTRY is a pair of unsigned 32-bit
integers named From and To; Omap.remap performs the bisect lookup.
-/

/-- One entry of the OMAP address-remap table (construct Struct OMAP_ENTRY in
    src/pdbparser/omap.py: From and To, both Int32ul). -/
structure OmapEntry where
  From : Nat
  To : Nat
  deriving DecidableEq, Repr

namespace Omap

/-- Omap.remap from src/pdbparser/omap.py, line for line:
    pos = bisect(froms, address); if froms[pos] != address: pos = pos - 1;
    return 0 when the entry's To is zero, else To + (address - From).
    The first indexing froms[pos] raises IndexError when pos equals the list
    length (bisect returns the length whenever address is at least the last
    From); after the decrement, pos can be -1, which Python indexing wraps to
    the last entry. -/
def remap (omap : List OmapEntry) (address : Nat) : Except PyErr Int :=
  let froms := omap.map (fun o => o.From)
  let pos := pyBisect froms address
  match pyGet froms pos with
  | .error e => .error e
  | .ok fpos =>
    let pos1 : Int := if fpos ≠ address then (pos : Int) - 1 else (pos : Int)
    match pyGetI omap pos1 with
    | .error e => .error e
    | .ok e =>
      if e.To = 0 then .ok ((e.To : Int))
      else .ok ((e.To : Int) + ((address : Int) - (e.From : Int)))

end Omap

/-!
Embedding of the MSF stream reader (class Stream in src/pdbparser/pdb.py).
The backing file is a byte list; Stream.getdata seeks to each listed page and
reads one full page there, concatenating the reads.  A read past the end of
the file returns the bytes that remain, as Python file reads do.
-/

/-- The Stream dataclass of src/pdbparser/pdb.py: declared byte size, page
    size and the list of page indices. -/
structure Stream where
  byte_sz : Nat
  page_sz : Nat
  pages : List Nat
  deriving DecidableEq, Repr

/-- Stream.getdata from src/pdbparser/pdb.py: for every page p the file is
    read at offset p * page_sz for page_sz bytes and the reads are
    concatenated.  Note that the result is not cut back to byte_sz. -/
def Stream.getdata (fp : List Nat) (s : Stream) : List Nat :=
  s.pages.foldl (fun data p => data ++ ((fp.drop (p * s.page_sz)).take s.page_sz)) []

/-- The OMAP table of the spec scenario: (0x1000 to 0x5000), (0x2000 to 0),
    (0x3000 to 0x7000), sorted by From. -/
def omapScenario : List OmapEntry := [⟨0x1000, 0x5000⟩, ⟨0x2000, 0⟩, ⟨0x3000, 0x7000⟩]

/-!
Dynamic values.  Parsed CodeView records are construct Containers: bags of
named attributes whose values are ints, strings, lists of type indices, the
reduced bit-structures of tpi.py, the result of the sRaw numeric-leaf parser,
None, or (for LF_FIELDLIST) a list of flattened sub-record containers.
-/

/-- A dynamic attribute value of a parsed Container.  vraw holds the result
    of tpi.sRaw (the Computed attribute name, the u16 discriminator _data0
    and the parsed _data1); vvalname is the value-plus-name struct parsed for
    discriminators at or above LF_CHAR; vsubs holds the flattened fieldlist
    sub-records as pairs of leaf kind and attributes. -/
inductive PyVal where
  | vint (n : Int)
  | vstr (s : String)
  | vintlist (l : List Int)
  | vprop (fwdref : Bool) (reserved : Nat)
  | vmods (munaligned mvolatile mconst : Bool)
  | vraw (rawAttr : String) (d0 : Nat) (d1 : PyVal)
  | vvalname (value : Int) (name : String)
  | vnone
  | vsubs (l : List (Nat × Option (List (String × PyVal))))

/-- The attribute bag of a construct Container. -/
abbrev Attrs := List (String × PyVal)

/-- Container attribute read; none models hasattr returning False. -/
def getAttr (t : Attrs) (a : String) : Option PyVal := pyDictGet t a

/-- Container attribute write: the attribute is updated in place when
    present and appended otherwise, as in a Python dict. -/
def setAttr (t : Attrs) (a : String) (v : PyVal) : Attrs := pyDictInsert t a v

/-- A flattened CodeView record, i.e. the Container that
    tpi.flatten_leaf_data returns: the decoded payload attributes plus the
    leafKind that flatten_leaf_data copies into them.  The leaf kind is kept
    as the numeric value of the tpi.eLeafKind enum (an unknown kind parses to
    its raw integer, which construct keeps). -/
structure CvRec where
  leafKind : Nat
  attrs : Attrs

/-- tpi.BasicType: the NamedTuple describing one primitive type. -/
structure BasicType where
  name : String
  size : Int := 0
  has_sign : Bool := false
  is_ptr : Bool := false
  is_real : Bool := false
  utype : Int := -1
  deriving DecidableEq, Repr

/-- tpi.eBaseTypes: the primitive-type table of src/pdbparser/tpi.py with
    every uncommented entry, in source order (the fields are name, size,
    has_sign, is_ptr, is_real, utype). -/
def eBaseTypes : List (Nat × BasicType) := [
  (0x0000, ⟨"T_NOTYPE", 0, false, false, false, -1⟩),
  (0x0003, ⟨"T_VOID", 4, false, false, false, -1⟩),
  (0x0008, ⟨"T_HRESULT", 4, false, false, false, -1⟩),
  (0x0010, ⟨"T_CHAR", 1, true, false, false, -1⟩),
  (0x0011, ⟨"T_SHORT", 2, true, false, false, -1⟩),
  (0x0012, ⟨"T_LONG", 4, true, false, false, -1⟩),
  (0x0013, ⟨"T_QUAD", 8, true, false, false, -1⟩),
  (0x0020, ⟨"T_UCHAR", 1, false, false, false, -1⟩),
  (0x0021, ⟨"T_USHORT", 2, false, false, false, -1⟩),
  (0x0022, ⟨"T_ULONG", 4, false, false, false, -1⟩),
  (0x0023, ⟨"T_UQUAD", 8, false, false, false, -1⟩),
  (0x0030, ⟨"T_BOOL08", 1, false, false, false, -1⟩),
  (0x0040, ⟨"T_REAL32", 4, true, false, true, -1⟩),
  (0x0041, ⟨"T_REAL64", 8, true, false, true, -1⟩),
  (0x0042, ⟨"T_REAL80", 10, true, false, true, -1⟩),
  (0x0070, ⟨"T_RCHAR", 1, false, false, false, -1⟩),
  (0x0071, ⟨"T_WCHAR", 2, false, false, false, -1⟩),
  (0x0074, ⟨"T_INT4", 4, true, false, false, -1⟩),
  (0x0075, ⟨"T_UINT4", 4, false, false, false, -1⟩),
  (0x0077, ⟨"T_UINT8", 8, false, false, false, -1⟩),
  (0x007A, ⟨"T_CHAR16", 2, false, false, false, -1⟩),
  (0x007B, ⟨"T_CHAR32", 4, false, false, false, -1⟩),
  (0x0103, ⟨"T_PVOID", 4, false, true, false, 0x03⟩),
  (0x0403, ⟨"T_32PVOID", 4, false, true, false, 0x03⟩),
  (0x0603, ⟨"T_64PVOID", 8, false, true, false, 0x03⟩),
  (0x0408, ⟨"LF_METHOD_16t", 4, false, true, false, 0x08⟩),
  (0x0420, ⟨"T_32PUCHAR", 4, false, true, false, 0x20⟩),
  (0x0470, ⟨"T_32PRCHAR", 4, false, true, false, 0x70⟩),
  (0x0471, ⟨"T_32PWCHAR", 4, false, true, false, 0x71⟩),
  (0x047A, ⟨"T_32PCHAR16", 4, false, true, false, 0x7A⟩),
  (0x047B, ⟨"T_32PCHAR32", 4, false, true, false, 0x7B⟩),
  (0x0411, ⟨"T_32PSHORT", 4, false, true, false, 0x11⟩),
  (0x0421, ⟨"T_32PUSHORT", 4, false, true, false, 0x21⟩),
  (0x0412, ⟨"T_32PLONG", 4, false, true, false, 0x12⟩),
  (0x0422, ⟨"T_32PULONG", 4, false, true, false, 0x22⟩),
  (0x0474, ⟨"T_32PINT4", 4, false, true, false, 0x74⟩),
  (0x0475, ⟨"T_32PUINT4", 4, false, true, false, 0x75⟩),
  (0x0413, ⟨"T_32PQUAD", 4, false, true, false, 0x13⟩),
  (0x0423, ⟨"T_32PUQUAD", 4, false, true, false, 0x23⟩),
  (0x0440, ⟨"T_32PREAL32", 4, false, true, false, 0x40⟩),
  (0x0441, ⟨"T_32PREAL64", 4, false, true, false, 0x41⟩),
  (0x0430, ⟨"T_32PBOOL08", 4, false, true, false, 0x30⟩)]

/-!
Numeric leaf-kind constants from tpi.eLeafKind, for the kinds the code
dispatches on.
-/

def LF_MODIFIER : Nat := 0x1001
def LF_POINTER : Nat := 0x1002
def LF_ARRAY_ST : Nat := 0x1003
def LF_STRUCTURE_ST : Nat := 0x1005
def LF_UNION_ST : Nat := 0x1006
def LF_PROCEDURE : Nat := 0x1008
def LF_ARGLIST : Nat := 0x1201
def LF_FIELDLIST : Nat := 0x1203
def LF_BITFIELD : Nat := 0x1205
def LF_BCLASS : Nat := 0x1400
def LF_MEMBER_ST : Nat := 0x1405
def LF_VFUNCTAB : Nat := 0x1409
def LF_ENUMERATE : Nat := 0x1502
def LF_ARRAY : Nat := 0x1503
def LF_CLASS : Nat := 0x1504
def LF_STRUCTURE : Nat := 0x1505
def LF_UNION : Nat := 0x1506
def LF_ENUM : Nat := 0x1507
def LF_MEMBER : Nat := 0x150d
def LF_STMEMBER : Nat := 0x150e
def LF_METHOD : Nat := 0x150f
def LF_NESTTYPE : Nat := 0x1510
def LF_ONEMETHOD : Nat := 0x1511
def LF_CHAR : Nat := 0x8000
def LF_SHORT : Nat := 0x8001
def LF_USHORT : Nat := 0x8002
def LF_LONG : Nat := 0x8003
def LF_ULONG : Nat := 0x8004
def LF_QUADWORD : Nat := 0x8009
def LF_UQUADWORD : Nat := 0x800a

/-!
Byte-level parsing primitives.  A byte stream is a List Nat of values below
256; the construct integer parsers read little-endian.
-/

/-- Read one byte (construct Int8ul). -/
def pU8 : List Nat → Option (Nat × List Nat)
  | b :: rest => some (b, rest)
  | _ => none

/-- Read a little-endian unsigned 16-bit integer (construct Int16ul). -/
def pU16 : List Nat → Option (Nat × List Nat)
  | b0 :: b1 :: rest => some (b0 + 0x100 * b1, rest)
  | _ => none

/-- Read a little-endian unsigned 32-bit integer (construct Int32ul). -/
def pU32 : List Nat → Option (Nat × List Nat)
  | b0 :: b1 :: b2 :: b3 :: rest =>
    some (b0 + 0x100 * b1 + 0x10000 * b2 + 0x1000000 * b3, rest)
  | _ => none

/-- Read a little-endian unsigned 64-bit integer (construct Int64ul). -/
def pU64 : List Nat → Option (Nat × List Nat)
  | b0 :: b1 :: b2 :: b3 :: b4 :: b5 :: b6 :: b7 :: rest =>
    some (b0 + 0x100 * b1 + 0x10000 * b2 + 0x1000000 * b3 +
          0x100000000 * b4 + 0x10000000000 * b5 + 0x1000000000000 * b6 +
          0x100000000000000 * b7, rest)
  | _ => none

/-- Two's-complement reinterpretation of a w-bit unsigned value (the signed
    construct parsers Int8sl, Int16sl, Int32sl, Int64sl). -/
def toSigned (w : Nat) (v : Nat) : Int :=
  if v < 2 ^ (w - 1) then (v : Int) else (v : Int) - 2 ^ w

/-- Read the bytes of a zero-terminated string (construct CString): the bytes
    before the first NUL and the remainder after it; fails when the stream
    holds no terminator. -/
def pCStringBytes : List Nat → Option (List Nat × List Nat)
  | [] => none
  | b :: rest =>
    if b = 0 then some ([], rest)
    else
      match pCStringBytes rest with
      | none => none
      | some (s, r) => some (b :: s, r)

/-- Decode name bytes to a string (the names in PDB type records are
    ASCII in every modelled scenario; construct decodes them as UTF-8). -/
def strOfBytes (bs : List Nat) : String := String.mk (bs.map Char.ofNat)

/-- Helper for the numeric branches of tpi.sRaw: one value read of the given
    width conversion followed by the zero-terminated name. -/
def sRawNum (rawAttr : String) (d0 : Nat) (conv : Nat → Int)
    (rd : List Nat → Option (Nat × List Nat)) (r1 : List Nat) :
    Option (PyVal × List Nat) :=
  match rd r1 with
  | none => none
  | some (v, r2) =>
    match pCStringBytes r2 with
    | none => none
    | some (nm, r3) => some (.vraw rawAttr d0 (.vvalname (conv v) (strOfBytes nm)), r3)

/-- tpi.sRaw(name): the inline numeric leaf.  _data0 is a u16; when it is
    below LF_CHAR (0x8000) the value is _data0 itself and the zero-terminated
    name follows directly; otherwise _data0 discriminates width and
    signedness of the value that precedes the name (LF_CHAR signed 8-bit,
    LF_SHORT signed 16-bit, LF_USHORT unsigned 16-bit, LF_LONG signed
    32-bit, LF_ULONG unsigned 32-bit, LF_QUADWORD signed 64-bit,
    LF_UQUADWORD unsigned 64-bit).  A discriminator at or above 0x8000 that
    is in none of the switch cases falls through construct's Pass default and
    leaves _data1 as None. -/
def sRawParse (rawAttr : String) (bs : List Nat) : Option (PyVal × List Nat) :=
  match pU16 bs with
  | none => none
  | some (d0, r1) =>
    if d0 < LF_CHAR then
      match pCStringBytes r1 with
      | none => none
      | some (nm, r2) => some (.vraw rawAttr d0 (.vstr (strOfBytes nm)), r2)
    else if d0 = LF_CHAR then sRawNum rawAttr d0 (toSigned 8) pU8 r1
    else if d0 = LF_SHORT then sRawNum rawAttr d0 (toSigned 16) pU16 r1
    else if d0 = LF_USHORT then sRawNum rawAttr d0 (fun v => (v : Int)) pU16 r1
    else if d0 = LF_LONG then sRawNum rawAttr d0 (toSigned 32) pU32 r1
    else if d0 = LF_ULONG then sRawNum rawAttr d0 (fun v => (v : Int)) pU32 r1
    else if d0 = LF_QUADWORD then sRawNum rawAttr d0 (toSigned 64) pU64 r1
    else if d0 = LF_UQUADWORD then sRawNum rawAttr d0 (fun v => (v : Int)) pU64 r1
    else some (.vraw rawAttr d0 .vnone, r1)

/-- tpi.insert_field_of_raw: move the parsed numeric-leaf value and name out
    of a record's _raw attribute into the attribute named by the sRaw
    Computed field and into name.  A record without _raw is returned
    unchanged.  When the discriminator was unknown (construct parsed _data1
    as None), the accesses _data1.value and _data1.name raise AttributeError.
    The fallback arms under a known discriminator are unreachable for parsed
    data, since sRaw always yields a string below 0x8000 and a value-name
    struct for the seven known numeric discriminators. -/
def insertFieldOfRaw (t : CvRec) : Except PyErr CvRec :=
  match getAttr t.attrs "_raw" with
  | some (.vraw rawAttr d0 d1) =>
    if d0 < LF_CHAR then
      match d1 with
      | .vstr nm =>
        .ok ⟨t.leafKind, setAttr (setAttr t.attrs rawAttr (.vint d0)) "name" (.vstr nm)⟩
      | _ => .error .attributeError
    else
      match d1 with
      | .vvalname v nm =>
        .ok ⟨t.leafKind, setAttr (setAttr t.attrs rawAttr (.vint v)) "name" (.vstr nm)⟩
      | _ => .error .attributeError
  | _ => .ok t

/-!
Byte-level embedding of the TPI record array parser (tpi.sTypType and
tpi.parse).  Parse outcomes are three-valued: ok, a construct parse failure
(ConstructError, which a surrounding GreedyRange treats as the end of input
but which aborts an Array), or a hard Python exception that propagates out of
every combinator.
-/

/-- Outcome of a construct parse in the embedded decoders. -/
inductive ParseRes (α : Type) where
  | ok (a : α)
  | softFail
  | hardErr (e : PyErr)

/-- tpi.sCvProperty in the reduced two-field form the source keeps: a 16-bit
    BitStruct of fwdref and 15 reserved bits; construct BitStruct reads bits
    most-significant-first, so fwdref is the top bit of the first byte. -/
def pCvProperty : List Nat → Option (PyVal × List Nat)
  | b0 :: b1 :: rest => some (.vprop ((b0 / 0x80) % 2 == 1) ((b0 % 0x80) * 0x100 + b1), rest)
  | _ => none

/-- The modifier BitStruct of tpi.lfModifier: five padding bits, the flags
    unaligned, volatile, const, then eight padding bits. -/
def pModifierBits : List Nat → Option (PyVal × List Nat)
  | b0 :: _ :: rest =>
    some (.vmods ((b0 / 4) % 2 == 1) ((b0 / 2) % 2 == 1) (b0 % 2 == 1), rest)
  | _ => none

/-- construct PascalString(Int8ub, utf8): a length byte then that many name
    bytes. -/
def pPascalString (bs : List Nat) : Option (String × List Nat) :=
  match pU8 bs with
  | none => none
  | some (n, r) =>
    if n ≤ r.length then some (strOfBytes (r.take n), r.drop n) else none

/-- construct CString as a String. -/
def pCString (bs : List Nat) : Option (String × List Nat) :=
  match pCStringBytes bs with
  | none => none
  | some (nm, r) => some (strOfBytes nm, r)

/-- construct Array(count, Int32ul), the args array of tpi.lfArgList. -/
def pIntArray : Nat → List Nat → Option (List Int × List Nat)
  | 0, bs => some ([], bs)
  | n + 1, bs => do
    let (v, r) ← pU32 bs
    let (vs, r2) ← pIntArray n r
    pure ((v : Int) :: vs, r2)

/-- tpi.lfArray: elemType, idxType, then the sRaw size-and-name leaf. -/
def pLfArray (bs : List Nat) : Option Attrs := do
  let (elemType, r1) ← pU32 bs
  let (idxType, r2) ← pU32 r1
  let (raw, _) ← sRawParse "size" r2
  pure [("elemType", .vint (elemType : Int)), ("idxType", .vint (idxType : Int)),
        ("_raw", raw)]

/-- tpi.lfArrayST: elemType, idxType, a u16 size and a length-prefixed name. -/
def pLfArrayST (bs : List Nat) : Option Attrs := do
  let (elemType, r1) ← pU32 bs
  let (idxType, r2) ← pU32 r1
  let (size, r3) ← pU16 r2
  let (name, _) ← pPascalString r3
  pure [("elemType", .vint (elemType : Int)), ("idxType", .vint (idxType : Int)),
        ("size", .vint (size : Int)), ("name", .vstr name)]

/-- tpi.lfModifier: modifiedType and the modifier flag bits. -/
def pLfModifier (bs : List Nat) : Option Attrs := do
  let (modifiedType, r1) ← pU32 bs
  let (mods, _) ← pModifierBits r1
  pure [("modifiedType", .vint (modifiedType : Int)), ("modifier", mods)]

/-- tpi.lfBitfield: baseType, length, position. -/
def pLfBitfield (bs : List Nat) : Option Attrs := do
  let (baseType, r1) ← pU32 bs
  let (len, r2) ← pU8 r1
  let (position, _) ← pU8 r2
  pure [("baseType", .vint (baseType : Int)), ("length", .vint (len : Int)),
        ("position", .vint (position : Int))]

/-- tpi.lfEnum: count, property, utype, fields and a zero-terminated name. -/
def pLfEnum (bs : List Nat) : Option Attrs := do
  let (count, r1) ← pU16 bs
  let (property, r2) ← pCvProperty r1
  let (utype, r3) ← pU32 r2
  let (fields, r4) ← pU32 r3
  let (name, _) ← pCString r4
  pure [("count", .vint (count : Int)), ("property", property),
        ("utype", .vint (utype : Int)), ("fields", .vint (fields : Int)),
        ("name", .vstr name)]

/-- tpi.lfStructure (used for LF_CLASS and LF_STRUCTURE): count, property,
    fields, derived, vshape, then the sRaw size-and-name leaf. -/
def pLfStructure (bs : List Nat) : Option Attrs := do
  let (count, r1) ← pU16 bs
  let (property, r2) ← pCvProperty r1
  let (fields, r3) ← pU32 r2
  let (derived, r4) ← pU32 r3
  let (vshape, r5) ← pU32 r4
  let (raw, _) ← sRawParse "size" r5
  pure [("count", .vint (count : Int)), ("property", property),
        ("fields", .vint (fields : Int)), ("derived", .vint (derived : Int)),
        ("vshape", .vint (vshape : Int)), ("_raw", raw)]

/-- tpi.lfStructureST: as lfStructure but with a u16 size and a
    length-prefixed name. -/
def pLfStructureST (bs : List Nat) : Option Attrs := do
  let (count, r1) ← pU16 bs
  let (property, r2) ← pCvProperty r1
  let (fields, r3) ← pU32 r2
  let (derived, r4) ← pU32 r3
  let (vshape, r5) ← pU32 r4
  let (size, r6) ← pU16 r5
  let (name, _) ← pPascalString r6
  pure [("count", .vint (count : Int)), ("property", property),
        ("fields", .vint (fields : Int)), ("derived", .vint (derived : Int)),
        ("vshape", .vint (vshape : Int)), ("size", .vint (size : Int)),
        ("name", .vstr name)]

/-- tpi.lfUnion: count, property, fields, then the sRaw size-and-name leaf. -/
def pLfUnion (bs : List Nat) : Option Attrs := do
  let (count, r1) ← pU16 bs
  let (property, r2) ← pCvProperty r1
  let (fields, r3) ← pU32 r2
  let (raw, _) ← sRawParse "size" r3
  pure [("count", .vint (count : Int)), ("property", property),
        ("fields", .vint (fields : Int)), ("_raw", raw)]

/-- tpi.lfUnionST: as lfUnion but with a u16 size and a length-prefixed
    name. -/
def pLfUnionST (bs : List Nat) : Option Attrs := do
  let (count, r1) ← pU16 bs
  let (property, r2) ← pCvProperty r1
  let (fields, r3) ← pU32 r2
  let (size, r4) ← pU16 r3
  let (name, _) ← pPascalString r4
  pure [("count", .vint (count : Int)), ("property", property),
        ("fields", .vint (fields : Int)), ("size", .vint (size : Int)),
        ("name", .vstr name)]

/-- tpi.lfPointer: utype and the reduced u32 pointer attribute word. -/
def pLfPointer (bs : List Nat) : Option Attrs := do
  let (utype, r1) ← pU32 bs
  let (ptr_attr, _) ← pU32 r1
  pure [("utype", .vint (utype : Int)), ("ptr_attr", .vint (ptr_attr : Int))]

/-- tpi.lfProcedure: rvtype, calltype, funcattr, parmcount, arglist. -/
def pLfProcedure (bs : List Nat) : Option Attrs := do
  let (rvtype, r1) ← pU32 bs
  let (calltype, r2) ← pU8 r1
  let (funcattr, r3) ← pU8 r2
  let (parmcount, r4) ← pU16 r3
  let (arglist, _) ← pU32 r4
  pure [("rvtype", .vint (rvtype : Int)), ("calltype", .vint (calltype : Int)),
        ("funcattr", .vint (funcattr : Int)), ("parmcount", .vint (parmcount : Int)),
        ("arglist", .vint (arglist : Int))]

/-- tpi.lfArgList: a u32 count then that many u32 type indices. -/
def pLfArgList (bs : List Nat) : Option Attrs := do
  let (count, r1) ← pU32 bs
  let (args, _) ← pIntArray count r1
  pure [("count", .vint (count : Int)), ("args", .vintlist args)]

/-- The sub-record padding of tpi: peek one byte after the sub-record; when
    it exists and exceeds 0xF0 the low nibble counts padding bytes, skipped
    when that many bytes remain (construct Optional rolls back otherwise). -/
def padAlign (r : List Nat) : List Nat :=
  match r with
  | b :: _ => if 0xF0 < b then (if b % 0x10 ≤ r.length then r.drop (b % 0x10) else r) else r
  | [] => r

/-- The peeked _pad attribute that the sub-record Containers keep: the next
    byte, or None at the end of the stream. -/
def peekPad (r : List Nat) : PyVal :=
  match r with
  | b :: _ => .vint (b : Int)
  | [] => .vnone

/-- tpi.sSubStruct: one fieldlist sub-record, a u16 leaf kind and a payload
    switched on it.  The LF_ONEMETHOD case of the source switches on
    ctx.fldattr.mprop, an attribute no Container has (the field is named
    attr), so parsing it raises an AttributeError that escapes the
    surrounding GreedyRange; kinds without a case take construct's Pass
    default, consume nothing further and leave data as None. -/
def pSubStruct (bs : List Nat) : ParseRes ((Nat × Option Attrs) × List Nat) :=
  match pU16 bs with
  | none => .softFail
  | some (kind, r1) =>
    if kind = LF_MEMBER_ST then
      match (do
        let (attr, s1) ← pU16 r1
        let (index, s2) ← pU32 s1
        let (offset, s3) ← pU16 s2
        let (name, s4) ← pPascalString s3
        pure (([("attr", PyVal.vint (attr : Int)), ("index", PyVal.vint (index : Int)),
                ("offset", PyVal.vint (offset : Int)), ("name", PyVal.vstr name),
                ("_pad", peekPad s4)] : Attrs), padAlign s4)) with
      | some (a, rest) => .ok ((kind, some a), rest)
      | none => .softFail
    else if kind = LF_MEMBER then
      match (do
        let (attr, s1) ← pU16 r1
        let (type0, s2) ← pU32 s1
        let (raw, s3) ← sRawParse "offset" s2
        pure (([("attr", PyVal.vint (attr : Int)), ("type", PyVal.vint (type0 : Int)),
                ("_raw", raw), ("_pad", peekPad s3)] : Attrs), padAlign s3)) with
      | some (a, rest) => .ok ((kind, some a), rest)
      | none => .softFail
    else if kind = LF_ENUMERATE then
      match (do
        let (attr, s1) ← pU16 r1
        let (raw, s2) ← sRawParse "value" s1
        pure (([("attr", PyVal.vint (attr : Int)), ("_raw", raw),
                ("_pad", peekPad s2)] : Attrs), padAlign s2)) with
      | some (a, rest) => .ok ((kind, some a), rest)
      | none => .softFail
    else if kind = LF_BCLASS then
      match (do
        let (attr, s1) ← pU16 r1
        let (index, s2) ← pU32 s1
        let (raw, s3) ← sRawParse "offset" s2
        pure (([("attr", PyVal.vint (attr : Int)), ("index", PyVal.vint (index : Int)),
                ("_raw", raw), ("_pad", peekPad s3)] : Attrs), padAlign s3)) with
      | some (a, rest) => .ok ((kind, some a), rest)
      | none => .softFail
    else if kind = LF_VFUNCTAB then
      match (do
        let (_, s1) ← pU16 r1
        let (type0, s2) ← pU32 s1
        pure (([("type", PyVal.vint (type0 : Int)),
                ("_pad", peekPad s2)] : Attrs), padAlign s2)) with
      | some (a, rest) => .ok ((kind, some a), rest)
      | none => .softFail
    else if kind = LF_ONEMETHOD then
      .hardErr .attributeError
    else if kind = LF_METHOD then
      match (do
        let (count, s1) ← pU16 r1
        let (mlist, s2) ← pU32 s1
        let (name, s3) ← pCString s2
        pure (([("count", PyVal.vint (count : Int)), ("mlist", PyVal.vint (mlist : Int)),
                ("name", PyVal.vstr name), ("_pad", peekPad s3)] : Attrs),
              padAlign s3)) with
      | some (a, rest) => .ok ((kind, some a), rest)
      | none => .softFail
    else if kind = LF_NESTTYPE then
      match (do
        let (_, s1) ← pU16 r1
        let (type0, s2) ← pU32 s1
        let (name, s3) ← pCString s2
        pure (([("type", PyVal.vint (type0 : Int)), ("name", PyVal.vstr name),
                ("_pad", peekPad s3)] : Attrs), padAlign s3)) with
      | some (a, rest) => .ok ((kind, some a), rest)
      | none => .softFail
    else if kind = LF_STMEMBER then
      match (do
        let (attr, s1) ← pU16 r1
        let (index, s2) ← pU32 s1
        let (name, s3) ← pCString s2
        pure (([("attr", PyVal.vint (attr : Int)), ("index", PyVal.vint (index : Int)),
                ("name", PyVal.vstr name)] : Attrs), s3)) with
      | some (a, rest) => .ok ((kind, some a), rest)
      | none => .softFail
    else
      .ok ((kind, none), r1)

/-- The GreedyRange of tpi.lfFieldList over sSubStruct: collect sub-records
    until a parse failure, which ends the range; a hard error propagates.
    Every iteration consumes at least the two kind bytes, so fuel equal to
    the stream length never runs out before the range ends by itself. -/
def pFieldListSubs : Nat → List Nat → ParseRes (List (Nat × Option Attrs))
  | 0, _ => .ok []
  | fuel + 1, bs =>
    match pSubStruct bs with
    | .softFail => .ok []
    | .hardErr e => .hardErr e
    | .ok ((kind, data), rest) =>
      match pFieldListSubs fuel rest with
      | .ok subs => .ok ((kind, data) :: subs)
      | .softFail => .softFail
      | .hardErr e => .hardErr e

/-- tpi.lfFieldList: the greedy sub-record sequence as the fields
    attribute. -/
def pLfFieldList (payload : List Nat) : ParseRes (Option Attrs) :=
  match pFieldListSubs payload.length payload with
  | .ok subs => .ok (some [("fields", .vsubs subs)])
  | .softFail => .softFail
  | .hardErr e => .hardErr e

/-- Lift an optional decode to a parse outcome (a failed construct subparse
    is a ConstructError). -/
def ofOpt (o : Option Attrs) : ParseRes (Option Attrs) :=
  match o with
  | some a => .ok (some a)
  | none => .softFail

/-- The payload Switch of tpi.sTypType: the fourteen decoded leaf kinds; any
    other kind takes construct's Pass default, so its data parses to None
    and the payload bytes are not stored. -/
def decodeLeafData (kind : Nat) (payload : List Nat) : ParseRes (Option Attrs) :=
  if kind = LF_ARRAY then ofOpt (pLfArray payload)
  else if kind = LF_ARRAY_ST then ofOpt (pLfArrayST payload)
  else if kind = LF_MODIFIER then ofOpt (pLfModifier payload)
  else if kind = LF_BITFIELD then ofOpt (pLfBitfield payload)
  else if kind = LF_ENUM then ofOpt (pLfEnum payload)
  else if kind = LF_FIELDLIST then pLfFieldList payload
  else if kind = LF_CLASS then ofOpt (pLfStructure payload)
  else if kind = LF_STRUCTURE then ofOpt (pLfStructure payload)
  else if kind = LF_STRUCTURE_ST then ofOpt (pLfStructureST payload)
  else if kind = LF_UNION then ofOpt (pLfUnion payload)
  else if kind = LF_UNION_ST then ofOpt (pLfUnionST payload)
  else if kind = LF_POINTER then ofOpt (pLfPointer payload)
  else if kind = LF_PROCEDURE then ofOpt (pLfProcedure payload)
  else if kind = LF_ARGLIST then ofOpt (pLfArgList payload)
  else .ok none

/-- One element of the TPI record array (construct sTypType): the declared
    length, the leaf kind, and the payload decoded by the Switch (None for
    the kinds the Switch does not list). -/
structure TypRec where
  length : Nat
  leafKind : Nat
  data : Option Attrs

/-- tpi.sTypType: a u16 length, a u16 leaf kind, then exactly length - 2
    payload bytes re-streamed into the Switch decoder.  A length below 2 or
    a stream shorter than the declared payload is a construct failure. -/
def pTypType (bs : List Nat) : ParseRes (TypRec × List Nat) :=
  match pU16 bs with
  | none => .softFail
  | some (len, r1) =>
    match pU16 r1 with
    | none => .softFail
    | some (kind, r2) =>
      if 2 ≤ len ∧ len - 2 ≤ r2.length then
        match decodeLeafData kind (r2.take (len - 2)) with
        | .ok d => .ok (⟨len, kind, d⟩, r2.drop (len - 2))
        | .softFail => .softFail
        | .hardErr e => .hardErr e
      else .softFail

/-- construct Array(count, sTypType): count records in sequence; any record
    failure aborts the array. -/
def tpiParseArr : Nat → List Nat → ParseRes (List TypRec × List Nat)
  | 0, bs => .ok ([], bs)
  | n + 1, bs =>
    match pTypType bs with
    | .ok (t, rest) =>
      match tpiParseArr n rest with
      | .ok (ts, r2) => .ok (t :: ts, r2)
      | .softFail => .softFail
      | .hardErr e => .hardErr e
    | .softFail => .softFail
    | .hardErr e => .hardErr e

/-- tpi.parse(data, count): the record array, dropping the final stream
    position. -/
def tpiParse (count : Nat) (bs : List Nat) : ParseRes (List TypRec) :=
  match tpiParseArr count bs with
  | .ok (ts, _) => .ok ts
  | .softFail => .softFail
  | .hardErr e => .hardErr e

/-- The composition of the sRaw parse with insert_field_of_raw, as the
    record loaders apply the two: the decoded value, the decoded name and
    the bytes that remain. -/
def numericLeafValue (bs : List Nat) : Option (Int × String × List Nat) :=
  match sRawParse "value" bs with
  | none => none
  | some (r, rest) =>
    match insertFieldOfRaw ⟨0, [("_raw", r)]⟩ with
    | .ok t =>
      match getAttr t.attrs "value", getAttr t.attrs "name" with
      | some (.vint v), some (.vstr nm) => some (v, nm, rest)
      | _, _ => none
    | .error _ => none

/-!
The forward-reference elimination of TpiStream.load_body and
TpiStream._foward_refs (src/pdbparser/pdb.py lines 188 to 257), over type
tables whose records are already parsed, flattened and fixed up.
-/

/-- tpi.TypRefAttrs, keyed by the numeric leaf kind: the reference-bearing
    attributes of each top-level leaf. -/
def TypRefAttrs : List (Nat × List String) := [
  (LF_ARGLIST, ["args"]),
  (LF_PROCEDURE, ["rvtype", "arglist"]),
  (LF_ARRAY, ["elemType", "idxType"]),
  (LF_ARRAY_ST, ["elemType", "idxType"]),
  (LF_BITFIELD, ["baseType"]),
  (LF_CLASS, ["fields", "derived", "vshape"]),
  (LF_ENUM, ["utype", "fields"]),
  (LF_FIELDLIST, []),
  (LF_MODIFIER, ["modifiedType"]),
  (LF_POINTER, ["utype"]),
  (LF_STRUCTURE, ["fields", "derived", "vshape"]),
  (LF_STRUCTURE_ST, ["fields", "derived", "vshape"]),
  (LF_UNION, ["fields"]),
  (LF_UNION_ST, ["fields"])]

/-- tpi.FieldsRefAttrs: the reference-bearing attributes of the fieldlist
    sub-records. -/
def FieldsRefAttrs : List (Nat × List String) := [
  (LF_BCLASS, ["index"]),
  (LF_ENUMERATE, []),
  (LF_MEMBER, ["type"]),
  (LF_MEMBER_ST, ["index"]),
  (LF_METHOD, ["mlist"]),
  (LF_NESTTYPE, ["type"]),
  (LF_ONEMETHOD, ["index"]),
  (LF_VFUNCTAB, ["type"]),
  (LF_STMEMBER, ["index"])]

/-- A Python dict comprehension over a list: each element optionally
    contributes a key-value pair, later contributions overriding earlier
    ones in place. -/
def pyDictComp [DecidableEq κ] (l : List β) (f : β → Option (κ × α)) : List (κ × α) :=
  l.foldl (fun m e =>
    match f e with
    | some kv => pyDictInsert m kv.1 kv.2
    | none => m) []

/-- Whether one element of a dict comprehension writes the given key (a
    helper for reasoning about pyDictComp). -/
def writesKey [DecidableEq κ] (f : β → Option (κ × α)) (k : κ) (e : β) : Bool :=
  match f e with
  | some kv => decide (kv.1 = k)
  | none => false

/-- A TPI type table: the insertion-ordered dict from type index to
    flattened record that TpiStream.load_body builds. -/
abbrev TypeDict := List (Nat × CvRec)

/-- hasattr(t, "property") and t.property.fwdref. -/
def isFwdref (t : CvRec) : Bool :=
  match getAttr t.attrs "property" with
  | some (.vprop f _) => f
  | _ => false

/-- t.name of a record; decoded records carrying a property always carry a
    string name, so the empty default is never reached on decoded tables. -/
def recName (t : CvRec) : String :=
  match getAttr t.attrs "name" with
  | some (.vstr s) => s
  | _ => ""

/-- hasattr(t, "name"). -/
def hasName (t : CvRec) : Bool := (getAttr t.attrs "name").isSome

/-- hasattr(t, "property"). -/
def hasProp (t : CvRec) : Bool := (getAttr t.attrs "property").isSome

/-- One entry's contribution to the fwdrefs dict of TpiStream.load_body. -/
def fwdrefEntry (p : Nat × CvRec) : Option (String × Nat) :=
  if isFwdref p.2 then some (recName p.2, p.1) else none

/-- The fwdrefs dict of TpiStream.load_body: name to index over the records
    whose property has fwdref set (a later fwdref with the same name
    overrides an earlier one). -/
def buildFwdrefs (td : TypeDict) : List (String × Nat) :=
  pyDictComp td fwdrefEntry

/-- One entry's contribution to the fwdrefs_map dict: a record that has a
    name and a property, is not a fwdref and whose name appears in the
    fwdrefs dict maps that fwdref index to its own index. -/
def fwdrefsMapEntry (fwdrefs : List (String × Nat)) (p : Nat × CvRec) :
    Option (Nat × Nat) :=
  if hasName p.2 && hasProp p.2 && !isFwdref p.2 then
    match pyDictGet fwdrefs (recName p.2) with
    | some fi => some (fi, p.1)
    | none => none
  else none

/-- The fwdrefs_map dict of TpiStream.load_body. -/
def buildFwdrefsMap (td : TypeDict) : List (Nat × Nat) :=
  pyDictComp td (fwdrefsMapEntry (buildFwdrefs td))

/-- The get_ref lookup of TpiStream._foward_refs under contextlib.suppress:
    a reference found in fwdrefs_map is replaced, a KeyError leaves it
    unchanged (get_ref branches on typeIndexBegin but both branches return
    the same dict lookup).  Type indices are unbounded Python ints, hence the
    comparison through Int. -/
def refRewrite (m : List (Nat × Nat)) (v : Int) : Int :=
  match m.find? (fun p => ((p.1 : Int) = v)) with
  | some p => (p.2 : Int)
  | none => v

/-- The attribute list TpiStream._foward_refs consults for a leaf kind:
    FieldsRefAttrs inside a fieldlist, TypRefAttrs otherwise, empty for
    unlisted kinds. -/
def refAttrList (insideFields : Bool) (kind : Nat) : List String :=
  (pyDictGet (if insideFields then FieldsRefAttrs else TypRefAttrs) kind).getD []

/-- The effect of one _foward_refs attribute rewrite on an attribute value:
    int references through the map, int lists elementwise, everything else
    unchanged. -/
def rwVal (m : List (Nat × Nat)) : Option PyVal → Option PyVal
  | some (.vint v) => some (.vint (refRewrite m v))
  | some (.vintlist l) => some (.vintlist (l.map (refRewrite m)))
  | o => o

/-- One attribute rewrite of TpiStream._foward_refs: an int reference is
    looked up in the map, a list of references elementwise; other shapes
    are untouched (records of the listed kinds always carry the listed
    attributes, so the missing-attribute arm is never reached on decoded
    tables). -/
def refStep (m : List (Nat × Nat)) (attrs : Attrs) (a : String) : Attrs :=
  match getAttr attrs a with
  | some (.vint v) => setAttr attrs a (.vint (refRewrite m v))
  | some (.vintlist l) => setAttr attrs a (.vintlist (l.map (refRewrite m)))
  | _ => attrs

/-- TpiStream._foward_refs: rewrite the listed reference attributes of one
    record. -/
def fowardRefs (m : List (Nat × Nat)) (insideFields : Bool) (t : CvRec) : CvRec :=
  ⟨t.leafKind, (refAttrList insideFields t.leafKind).foldl (refStep m) t.attrs⟩

/-- The rewrite of a fieldlist's fields attribute: each flattened sub-record
    runs through _foward_refs with FieldsRefAttrs (a sub-record whose data
    parsed to None flattens to an empty Container); every other attribute is
    untouched. -/
def resolveFieldsAttr (m : List (Nat × Nat)) (p : String × PyVal) : String × PyVal :=
  if p.1 = "fields" then
    match p.2 with
    | .vsubs subs => ("fields", .vsubs (subs.map (fun s =>
        let r := fowardRefs m true ⟨s.1, s.2.getD []⟩
        (r.leafKind, some r.attrs))))
    | v => ("fields", v)
  else p

/-- One record's rewrite in the resolution loop of load_body: a fieldlist
    rewrites each of its flattened sub-records with FieldsRefAttrs, any
    other record rewrites its own attributes with TypRefAttrs. -/
def resolveRecord (m : List (Nat × Nat)) (t : CvRec) : CvRec :=
  if t.leafKind = LF_FIELDLIST then ⟨t.leafKind, t.attrs.map (resolveFieldsAttr m)⟩
  else fowardRefs m false t

/-- The forward-reference elimination of TpiStream.load_body: build the
    fwdrefs and fwdrefs_map dicts, rewrite every record (the resolve-fields
    loop), and delete the keys of fwdrefs_map from the table. -/
def resolveFwdrefs (td : TypeDict) : TypeDict :=
  let m := buildFwdrefsMap td
  let td2 := td.map (fun p => (p.1, resolveRecord m p.2))
  td2.filter (fun p => !(m.any (fun q => q.1 = p.1)))

/-!
The TPI query layer: TpiStream.get_lf_from_tid, get_lf_from_name,
get_lf_size, get_lf_tpname and form_structs of src/pdbparser/pdb.py.
Unbounded Python recursion (through type-table lookups) is modelled with a
fuel argument; every modelled scenario terminates well within the fuel
supplied.
-/

/-- A Python value flowing through the TPI query functions: a primitive
    BasicType, a record Container, or a plain int (the raw type index the
    modifier branch of get_lf_size passes to itself). -/
inductive LfVal where
  | basic (b : BasicType)
  | record (r : CvRec)
  | intv (n : Int)

/-- The TpiStream state the queries consult: header.typeIndexBegin, the
    resolved record dict and the ARCH_PTR_SIZE class attribute that
    PDB7.__init__ overwrites from the DBI machine field. -/
structure TpiCtx where
  typeIndexBegin : Nat
  types : TypeDict
  ARCH_PTR_SIZE : Int := 4

/-- TpiStream.get_lf_from_tid: indices below typeIndexBegin consult the
    primitive table (KeyError on an unknown primitive), others the record
    dict (KeyError when absent, as after fwdref deletion). -/
def getLfFromTid (ctx : TpiCtx) (ref : Nat) : Except PyErr LfVal :=
  if ref < ctx.typeIndexBegin then
    match pyDictGet eBaseTypes ref with
    | some b => .ok (.basic b)
    | none => .error .keyError
  else
    match pyDictGet ctx.types ref with
    | some t => .ok (.record t)
    | none => .error .keyError

/-- The membership test of TpiStream.structs: the five composite leaf
    kinds. -/
def isComposite5 (k : Nat) : Bool :=
  k = LF_CLASS || k = LF_STRUCTURE || k = LF_STRUCTURE_ST ||
  k = LF_UNION || k = LF_UNION_ST

/-- One entry's contribution to TpiStream.structs. -/
def structsEntry (p : Nat × CvRec) : Option (String × CvRec) :=
  if isComposite5 p.2.leafKind then some (recName p.2, p.2) else none

/-- TpiStream.structs: name to record over the composite leaf kinds. -/
def structs (ctx : TpiCtx) : List (String × CvRec) :=
  pyDictComp ctx.types structsEntry

/-- TpiStream.get_lf_from_name: scan the primitive table for a matching
    name, then the structs dict; KeyError when both miss. -/
def tpiGetLfFromName (ctx : TpiCtx) (ref : String) : Except PyErr LfVal :=
  match eBaseTypes.find? (fun p => p.2.name = ref) with
  | some p => .ok (.basic p.2)
  | none =>
    match pyDictGet (structs ctx) ref with
    | some t => .ok (.record t)
    | none => .error .keyError

/-- Attribute access that must yield an int (AttributeError otherwise, as
    for a missing Container attribute). -/
def intAttr (lf : CvRec) (a : String) : Except PyErr Int :=
  match getAttr lf.attrs a with
  | some (.vint v) => .ok v
  | _ => .error .attributeError

/-- Attribute access that must yield a string. -/
def strAttr (lf : CvRec) (a : String) : Except PyErr String :=
  match getAttr lf.attrs a with
  | some (.vstr s) => .ok s
  | _ => .error .attributeError

/-- The leafKind attribute of a dynamic value: Containers carry one,
    BasicType tuples and ints do not (AttributeError). -/
def lfLeafKind : LfVal → Except PyErr Nat
  | .record r => .ok r.leafKind
  | _ => .error .attributeError

/-- Whether a needle list occurs contiguously inside a hay list (the Python
    substring test). -/
def listContainsSeq [DecidableEq γ] (needle : List γ) : List γ → Bool
  | [] => needle.isPrefixOf []
  | h :: t => needle.isPrefixOf (h :: t) || listContainsSeq needle t

/-- The Python expression sub in s on strings: substring containment. -/
def pyStrContains (sub s : String) : Bool := listContainsSeq sub.toList s.toList

/-- The ARCH_PTR_SIZE set by PDB7.__init__: the first test is
    dbs.header.Machine in 'IMAGE_FILE_MACHINE_I386' - a Python substring
    test against a plain string, not a tuple - and the second a genuine
    tuple membership; any other machine keeps the class default of 4. -/
def archPtrSizeFromMachine (machine : String) : Int :=
  if pyStrContains machine "IMAGE_FILE_MACHINE_I386" then 4
  else if machine = "IMAGE_FILE_MACHINE_AMD64" ∨ machine = "IMAGE_FILE_MACHINE_IA64" then 8
  else 4

/-- TpiStream.get_lf_size.  The composite and array kinds read the decoded
    size attribute, pointers the ARCH_PTR_SIZE, enums 4, bitfields the size
    attribute of the base type, every unlisted kind -1.  The modifier branch
    is the source's slip: it calls get_lf_size on lf.modifiedType, the raw
    int index, and the recursive call neither is a BasicType instance nor
    has a leafKind attribute, so it raises AttributeError. -/
def getLfSize (ctx : TpiCtx) : Nat → LfVal → Except PyErr Int
  | 0, _ => .error .outOfFuel
  | _ + 1, .basic b => .ok b.size
  | _ + 1, .intv _ => .error .attributeError
  | fuel + 1, .record lf =>
    if isComposite5 lf.leafKind || lf.leafKind = LF_ARRAY then intAttr lf "size"
    else if lf.leafKind = LF_POINTER then .ok ctx.ARCH_PTR_SIZE
    else if lf.leafKind = LF_ENUM then .ok 4
    else if lf.leafKind = LF_BITFIELD then do
      let bt ← intAttr lf "baseType"
      let r ← getLfFromTid ctx bt.toNat
      match r with
      | .basic b => .ok b.size
      | .record rr => intAttr rr "size"
      | .intv _ => .error .attributeError
    else if lf.leafKind = LF_MODIFIER then do
      let mt ← intAttr lf "modifiedType"
      getLfSize ctx fuel (.intv mt)
    else .ok (-1)

/-- Names of the eLeafKind values modelled here, for str(lf.leafKind); the
    construct enum also names many kinds no modelled code path reaches, and
    an undeclared numeric kind prints as its number. -/
def eLeafKindName (k : Nat) : Option String :=
  pyDictGet [
    (LF_MODIFIER, "LF_MODIFIER"), (LF_POINTER, "LF_POINTER"),
    (LF_ARRAY_ST, "LF_ARRAY_ST"), (LF_STRUCTURE_ST, "LF_STRUCTURE_ST"),
    (LF_UNION_ST, "LF_UNION_ST"), (LF_PROCEDURE, "LF_PROCEDURE"),
    (LF_ARGLIST, "LF_ARGLIST"), (LF_FIELDLIST, "LF_FIELDLIST"),
    (LF_BITFIELD, "LF_BITFIELD"), (LF_BCLASS, "LF_BCLASS"),
    (LF_MEMBER_ST, "LF_MEMBER_ST"), (LF_VFUNCTAB, "LF_VFUNCTAB"),
    (LF_ENUMERATE, "LF_ENUMERATE"), (LF_ARRAY, "LF_ARRAY"),
    (LF_CLASS, "LF_CLASS"), (LF_STRUCTURE, "LF_STRUCTURE"),
    (LF_UNION, "LF_UNION"), (LF_ENUM, "LF_ENUM"), (LF_MEMBER, "LF_MEMBER"),
    (LF_STMEMBER, "LF_STMEMBER"), (LF_METHOD, "LF_METHOD"),
    (LF_NESTTYPE, "LF_NESTTYPE"), (LF_ONEMETHOD, "LF_ONEMETHOD")] k

/-- str(lf.leafKind) for the record kinds. -/
def leafKindStr (k : Nat) : String := (eLeafKindName k).getD (toString k)

/-- Sequence a list of Except computations, stopping at the first error,
    as a Python list comprehension would. -/
def exceptList : List (Except PyErr γ) → Except PyErr (List γ)
  | [] => .ok []
  | .ok a :: rest => (exceptList rest).map (fun l => a :: l)
  | .error e :: _ => .error e

/-- The dimension-collecting while loop in the array branch of
    TpiStream.get_lf_tpname.  Note that item_size is never reassigned in the
    source loop, so every dimension divides the outermost array's byte size;
    the embedding reproduces that. -/
def arrayDims (ctx : TpiCtx) : Nat → LfVal → Int → Except PyErr (List Int × LfVal)
  | 0, _, _ => .error .outOfFuel
  | fuel + 1, item_lf, item_size =>
    match item_lf with
    | .record r =>
      if r.leafKind = LF_ARRAY then do
        let et ← intAttr r "elemType"
        let next ← getLfFromTid ctx et.toNat
        let nsz ← getLfSize ctx fuel next
        if nsz = 0 then .error .zeroDivisionError
        else do
          let (rest, last) ← arrayDims ctx fuel next item_size
          .ok ((item_size.fdiv nsz) :: rest, last)
      else .ok ([], item_lf)
    | _ => .ok ([], item_lf)

/-- TpiStream.get_lf_tpname: the type-name renderer.  Primitives print
    their name, composites their name attribute, pointers append a star
    (procedure pointers render as the procedure), enums and bitfields print
    their leaf kind, procedures format rtype (*)(args), modifiers prepend
    the const, unaligned, volatile tokens present in the modifier bits
    (joined before a space, hence a leading space when no token is set), and
    arrays collect dimensions with parentheses around pointer elements.
    Accessing leafKind on a primitive pointee raises AttributeError, as in
    the source. -/
def getLfTpname (ctx : TpiCtx) : Nat → LfVal → Except PyErr String
  | 0, _ => .error .outOfFuel
  | _ + 1, .basic b => .ok b.name
  | _ + 1, .intv _ => .error .attributeError
  | fuel + 1, .record lf =>
    if isComposite5 lf.leafKind then strAttr lf "name"
    else if lf.leafKind = LF_POINTER then do
      let u ← intAttr lf "utype"
      let ref ← getLfFromTid ctx u.toNat
      let rk ← lfLeafKind ref
      if rk = LF_PROCEDURE then getLfTpname ctx fuel ref
      else do
        let s ← getLfTpname ctx fuel ref
        .ok (s ++ " *")
    else if lf.leafKind = LF_ENUM then .ok (leafKindStr lf.leafKind)
    else if lf.leafKind = LF_PROCEDURE then do
      let rv ← intAttr lf "rvtype"
      let rref ← getLfFromTid ctx rv.toNat
      let rtntype ← getLfTpname ctx fuel rref
      let al ← intAttr lf "arglist"
      let aref ← getLfFromTid ctx al.toNat
      let args ← match aref with
        | .record ar =>
          match getAttr ar.attrs "args" with
          | some (.vintlist l) =>
            exceptList (l.map (fun x =>
              match getLfFromTid ctx x.toNat with
              | .ok r => getLfTpname ctx fuel r
              | .error e => .error e))
          | _ => .error .attributeError
        | _ => .error .attributeError
      .ok (rtntype ++ " (*)(" ++ String.intercalate ", " args ++ ")")
    else if lf.leafKind = LF_MODIFIER then do
      let mt ← intAttr lf "modifiedType"
      let ref ← getLfFromTid ctx mt.toNat
      let tpname ← getLfTpname ctx fuel ref
      let mods ← match getAttr lf.attrs "modifier" with
        | some (.vmods munaligned mvolatile mconst) =>
          .ok ((if mconst then ["const"] else []) ++
               (if munaligned then ["unaligned"] else []) ++
               (if mvolatile then ["volatile"] else []))
        | _ => .error .attributeError
      .ok (String.intercalate " " mods ++ " " ++ tpname)
    else if lf.leafKind = LF_ARRAY then do
      let item_size ← getLfSize ctx fuel (.record lf)
      let (dims, item) ← arrayDims ctx fuel (.record lf) item_size
      let structname ← getLfTpname ctx fuel item
      let dimstr := String.join (dims.map (fun d => "[" ++ toString d ++ "]"))
      if structname.endsWith "*" then .ok ("(" ++ structname ++ ")" ++ dimstr)
      else .ok (structname ++ dimstr)
    else if lf.leafKind = LF_BITFIELD then .ok (leafKindStr lf.leafKind)
    else .ok (leafKindStr lf.leafKind)

/-- The StructRecord tree that form_structs produces: every key of the
    TypedDict plus the is_funcptr key the pointer branch adds at runtime.
    The fields entry is a list for arrays and enums, a name-keyed dict for
    composites, or absent. -/
inductive SRec where
  | mk (levelname : String) (value : Option Int) (type : String) (address : Int)
      (size : Int) (bitoff : Option Int) (bitsize : Option Int)
      (fields : Option ((List SRec) ⊕ (List (String × SRec))))
      (is_pointer : Bool) (is_real : Bool) (has_sign : Bool) (is_funcptr : Bool)
      (lf : Option LfVal)

/-- The address entry of a StructRecord. -/
def SRec.address : SRec → Int
  | .mk _ _ _ a _ _ _ _ _ _ _ _ _ => a

/-- The type entry of a StructRecord. -/
def SRec.type : SRec → String
  | .mk _ _ t _ _ _ _ _ _ _ _ _ _ => t

/-- The levelname entry of a StructRecord. -/
def SRec.levelname : SRec → String
  | .mk l _ _ _ _ _ _ _ _ _ _ _ _ => l

/-- Replace the levelname entry (the mutation the composite, array and
    member branches perform on a child record). -/
def SRec.setLevelname : SRec → String → SRec
  | .mk _ v t a s bo bs f ip ir hs ifp l, n => .mk n v t a s bo bs f ip ir hs ifp l

/-- The fields attribute of a fieldlist record. -/
def fieldlistSubs (v : LfVal) : Except PyErr (List (Nat × Option Attrs)) :=
  match v with
  | .record r =>
    match getAttr r.attrs "fields" with
    | some (.vsubs l) => .ok l
    | _ => .error .attributeError
  | _ => .error .attributeError

/-- The member loop of the composite branch of form_structs: members whose
    form_structs result is None (nested types) are skipped, every other
    result has its levelname set to the member name and is written into the
    name-keyed fields dict in order. -/
def foldFields (acc : List (String × SRec)) :
    List (CvRec × Except PyErr (Option SRec)) → Except PyErr (List (String × SRec))
  | [] => .ok acc
  | (mlf, r) :: rest =>
    match r with
    | .error e => .error e
    | .ok none => foldFields acc rest
    | .ok (some ms) =>
      match getAttr mlf.attrs "name" with
      | some (.vstr nm) => foldFields (pyDictInsert acc nm (ms.setLevelname nm)) rest
      | _ => .error .attributeError

/-- TpiStream.form_structs, branch for branch.  The modifier branch
    reproduces the source slip: it recurses into the modified type while
    dropping the addr, recursive and depth arguments, which therefore reset
    to their defaults 0, True and 0. -/
def formStructs (ctx : TpiCtx) : Nat → LfVal → Int → Bool → Nat →
    Except PyErr (Option SRec)
  | 0, _, _, _, _ => .error .outOfFuel
  | fuel + 1, .basic b, addr, _, _ => do
    let tp ← getLfTpname ctx fuel (.basic b)
    let sz ← getLfSize ctx fuel (.basic b)
    .ok (some (.mk b.name none tp addr sz none none none b.is_ptr b.is_real
      b.has_sign false (some (.basic b))))
  | _ + 1, .intv _, _, _, _ => .error .attributeError
  | fuel + 1, .record lf, addr, recursive, depth =>
    if isComposite5 lf.leafKind then do
      let tp ← getLfTpname ctx fuel (.record lf)
      let sz ← getLfSize ctx fuel (.record lf)
      let flds ←
        if recursive || depth = 0 then do
          let fi ← intAttr lf "fields"
          let fl ← getLfFromTid ctx fi.toNat
          let subs ← fieldlistSubs fl
          foldFields [] (subs.map (fun s =>
            let mlf : CvRec := ⟨s.1, s.2.getD []⟩
            (mlf, formStructs ctx fuel (.record mlf) addr recursive (depth + 1))))
        else .ok []
      .ok (some (.mk "" none tp addr sz none none (some (.inr flds)) false false
        false false (some (.record lf))))
    else if lf.leafKind = LF_ARRAY then do
      let et ← intAttr lf "elemType"
      let elem_lf ← getLfFromTid ctx et.toNat
      let elem_size ← getLfSize ctx fuel elem_lf
      let sz ← getLfSize ctx fuel (.record lf)
      let cnt ← if elem_size = 0 then
          (.error .zeroDivisionError : Except PyErr Int)
        else .ok (sz.fdiv elem_size)
      let nm ← strAttr lf "name"
      let tp ← getLfTpname ctx fuel (.record lf)
      let elems ←
        if recursive || depth = 0 then
          exceptList ((List.range cnt.toNat).map (fun idx => do
            let r ← formStructs ctx fuel elem_lf (addr + idx * elem_size)
              recursive (depth + 1)
            match r with
            | some s => .ok (s.setLevelname ("[" ++ toString idx ++ "]"))
            | none => (.error .typeError : Except PyErr SRec)))
        else .ok []
      .ok (some (.mk nm none tp addr sz none none (some (.inl elems)) false false
        false false (some (.record lf))))
    else if lf.leafKind = LF_MEMBER then do
      let ty ← intAttr lf "type"
      let ref ← getLfFromTid ctx ty.toNat
      let off ← intAttr lf "offset"
      let r ← formStructs ctx fuel ref (addr + off) recursive depth
      match r with
      | some s => do
        let nm ← strAttr lf "name"
        .ok (some (s.setLevelname nm))
      | none => .error .typeError
    else if lf.leafKind = LF_NESTTYPE then .ok none
    else if lf.leafKind = LF_BITFIELD then do
      let tp ← getLfTpname ctx fuel (.record lf)
      let sz ← getLfSize ctx fuel (.record lf)
      let pos ← intAttr lf "position"
      let len ← intAttr lf "length"
      .ok (some (.mk "" none tp addr sz (some pos) (some len) none false false
        false false (some (.record lf))))
    else if lf.leafKind = LF_ENUM then do
      let nm ← strAttr lf "name"
      let tp ← getLfTpname ctx fuel (.record lf)
      let sz ← getLfSize ctx fuel (.record lf)
      .ok (some (.mk nm none tp addr sz none none (some (.inl [])) false false
        false false (some (.record lf))))
    else if lf.leafKind = LF_POINTER then do
      let u ← intAttr lf "utype"
      let ref ← getLfFromTid ctx u.toNat
      let rk ← lfLeafKind ref
      let tp ← getLfTpname ctx fuel (.record lf)
      let sz ← getLfSize ctx fuel (.record lf)
      .ok (some (.mk "" none tp addr sz none none none true false false
        (rk = LF_PROCEDURE) (some (.record lf))))
    else if lf.leafKind = LF_MODIFIER then do
      let mt ← intAttr lf "modifiedType"
      let ref ← getLfFromTid ctx mt.toNat
      formStructs ctx fuel ref 0 true 0
    else .error .notImplementedError

/-- TpiStream.deref_pointer: require a utype attribute, resolve it (a
    KeyError there is rewrapped as a ValueError too) and lay out the
    pointee. -/
def derefPointer (ctx : TpiCtx) (fuel : Nat) (lf : CvRec) (addr : Int)
    (recursive : Bool) : Except PyErr (Option SRec) :=
  match getAttr lf.attrs "utype" with
  | some (.vint u) =>
    match getLfFromTid ctx u.toNat with
    | .ok struct => formStructs ctx fuel struct addr recursive 0
    | .error .keyError => .error .valueError
    | .error e => .error e
  | _ => .error .valueError

/-- A structure record in its post-fix-values shape (the sRaw size and name
    moved into proper attributes), for building concrete tables. -/
def mkStructRec (fwdref : Bool) (name : String) (fields : Int) (size : Int) : CvRec :=
  ⟨LF_STRUCTURE,
   [("count", .vint 0), ("property", .vprop fwdref 0), ("fields", .vint fields),
    ("derived", .vint 0), ("vshape", .vint 0), ("size", .vint size),
    ("name", .vstr name)]⟩

/-!
The address and name resolver: the gdata symbol records, the
GlobalSymbolStream indexes, the PE section headers, the section-plus-OMAP
remap closure of PDB7._secoff_to_func, PDB7.addrress_map and the chained
name lookup PDB7.get_lf_from_name.
-/

/-- gdata.DATASYM32 (S_GDATA32, S_LDATA32): type index, offset, section and
    name (the section field is called sect here because section is reserved
    in Lean). -/
structure DATASYM32 where
  typind : Nat
  offset : Nat
  sect : Nat
  name : String
  deriving DecidableEq, Repr

/-- gdata.REFSYM2 (S_PROCREF, S_LPROCREF). -/
structure REFSYM2 where
  sumName : Nat
  ibSym : Nat
  ximod : Nat
  name : String
  deriving DecidableEq, Repr

/-- gdata.UDT (S_UDT). -/
structure UDTSYM where
  typind : Nat
  name : String
  deriving DecidableEq, Repr

/-- A flattened module symbol as DbiModule.load_body keeps it: a name (the
    symbols list only keeps named records) and, where the record carries
    them, a section and offset. -/
structure ModSym where
  name : String
  seg : Option Nat
  off : Option Nat
  deriving DecidableEq, Repr

/-- pe.IMAGE_SECTION_HEADER; the Misc union is kept as its single 32-bit
    word. -/
structure IMAGE_SECTION_HEADER where
  Name : String
  Misc : Nat
  VirtualAddress : Nat
  SizeOfRawData : Nat
  PointerToRawData : Nat
  PointerToRelocations : Nat
  PointerToLinenumbers : Nat
  NumberOfRelocations : Nat
  NumberOfLinenumbers : Nat
  Characteristics : Nat
  deriving DecidableEq, Repr

/-- The per-kind record lists GlobalSymbolStream.load_body accumulates. -/
structure GlobalSymbolStream where
  s_gdata32 : List DATASYM32
  s_ldata32 : List DATASYM32
  s_procref : List REFSYM2
  s_lprocref : List REFSYM2
  s_udt : List UDTSYM

/-- The dict entry of the symbols and refsymbols caches: key is the record
    name, last record with a name wins. -/
def datasymEntry (v : DATASYM32) : Option (String × DATASYM32) := some (v.name, v)

/-- The dict entry of the refsymbols cache. -/
def refsymEntry (v : REFSYM2) : Option (String × REFSYM2) := some (v.name, v)

/-- The dict entry of the user_defines cache. -/
def udtEntry (v : UDTSYM) : Option (String × UDTSYM) := some (v.name, v)

/-- GlobalSymbolStream.symbols: the name-keyed dict over s_gdata32 then
    s_ldata32 in that order. -/
def GlobalSymbolStream.symbols (g : GlobalSymbolStream) : List (String × DATASYM32) :=
  pyDictComp (g.s_gdata32 ++ g.s_ldata32) datasymEntry

/-- GlobalSymbolStream.refsymbols: the name-keyed dict over s_procref then
    s_lprocref. -/
def GlobalSymbolStream.refsymbols (g : GlobalSymbolStream) : List (String × REFSYM2) :=
  pyDictComp (g.s_procref ++ g.s_lprocref) refsymEntry

/-- GlobalSymbolStream.user_defines: the name-keyed dict over s_udt. -/
def GlobalSymbolStream.user_defines (g : GlobalSymbolStream) : List (String × UDTSYM) :=
  pyDictComp g.s_udt udtEntry

/-- The PDB7 state the resolver consults: the TPI context, the global
    symbol stream, the two section-header streams (the original one is
    present only when the DBI debug header names it), the OMAP-from-src
    stream, and the module symbol streams in DBI exheader order. -/
structure PdbModel where
  tpi : TpiCtx
  glb : GlobalSymbolStream
  sectsOrig : Option (List IMAGE_SECTION_HEADER)
  omapFromSrc : Option (List OmapEntry)
  sects : List IMAGE_SECTION_HEADER
  modules : List (List ModSym)

/-- The stream choice of PDB7._secoff_to_func: the original sections with
    the OMAP-from-src stream when both exist, otherwise the current
    sections with a DummyOmap (an AttributeError on either missing stream
    selects the fallback). -/
def secoffSetup (pdb : PdbModel) :
    List IMAGE_SECTION_HEADER × Option (List OmapEntry) :=
  match pdb.sectsOrig, pdb.omapFromSrc with
  | some so, some om => (so, some om)
  | _, _ => (pdb.sects, none)

/-- The remap closure PDB7._secoff_to_func returns:
    omap.remap(sects[section - 1].VirtualAddress + offset), with Python
    indexing on the section list (section 0 wraps to the last section) and
    identity when no OMAP stream is used. -/
def remapFn (pdb : PdbModel) (sect offset : Nat) : Except PyErr Int := do
  let setup := secoffSetup pdb
  let sh ← pyGetI setup.1 ((sect : Int) - 1)
  let a : Nat := sh.VirtualAddress + offset
  match setup.2 with
  | some om => Omap.remap om a
  | none => .ok ((a : Nat) : Int)

/-- One data symbol's contribution to PDB7.addrress_map: the remapped
    offset keyed to the name; an IndexError from the remap skips the
    entry (the try/except of the first loop). -/
def addrMapEntry (pdb : PdbModel) (v : DATASYM32) : Option (Int × String) :=
  match remapFn pdb v.sect v.offset with
  | .ok x => some (x, v.name)
  | .error _ => none

/-- The first loop of PDB7.addrress_map over the data-symbol dict values. -/
def addrressMapLoop1 (pdb : PdbModel) (vs : List DATASYM32)
    (m : List (Int × String)) : List (Int × String) :=
  vs.foldl (fun m v =>
    match addrMapEntry pdb v with
    | some kv => pyDictInsert m kv.1 kv.2
    | none => m) m

/-- The inner loop of the second pass of PDB7.addrress_map: every module
    symbol that carries both seg and off is remapped (an IndexError here is
    not caught) and written over the map. -/
def addrressMapMod (pdb : PdbModel) :
    List ModSym → List (Int × String) → Except PyErr (List (Int × String))
  | [], m => .ok m
  | s :: rest, m =>
    match s.seg, s.off with
    | some seg, some off => do
      let a ← remapFn pdb seg off
      addrressMapMod pdb rest (pyDictInsert m a s.name)
    | _, _ => addrressMapMod pdb rest m

/-- The second loop of PDB7.addrress_map over the procref dict values: each
    resolves its module by ximod - 1 with Python indexing (uncaught
    IndexError) and merges that module's named symbols. -/
def addrressMapLoop2 (pdb : PdbModel) :
    List REFSYM2 → List (Int × String) → Except PyErr (List (Int × String))
  | [], m => .ok m
  | r :: rest, m => do
    let module ← pyGetI pdb.modules ((r.ximod : Int) - 1)
    let m2 ← addrressMapMod pdb module m
    addrressMapLoop2 pdb rest m2

/-- PDB7.addrress_map: the offset-to-name dict built from the global data
    symbols and then the procref modules. -/
def addrressMap (pdb : PdbModel) : Except PyErr (List (Int × String)) :=
  addrressMapLoop2 pdb (pdb.glb.refsymbols.map Prod.snd)
    (addrressMapLoop1 pdb (pdb.glb.symbols.map Prod.snd) [])

/-- PDB7.get_refname_from_offset: the dict lookup on addrress_map. -/
def getRefnameFromOffset (pdb : PdbModel) (offset : Int) :
    Except PyErr (Option String) :=
  (addrressMap pdb).map (fun m => pyDictGet m offset)

/-- What the chained name lookup can hand back: a TPI value or a module
    symbol Container. -/
inductive ResolvedLf where
  | tpi (v : LfVal)
  | modsym (s : ModSym)

/-- PDB7._get_glb: look the name up in the data-symbol dict, remap its
    section and offset (errors here are not caught), and resolve its type
    index. -/
def getGlb (pdb : PdbModel) (ref : String) :
    Except PyErr (Option ResolvedLf × Int) :=
  match pyDictGet pdb.glb.symbols ref with
  | none => .ok (none, 0)
  | some g => do
    let a ← remapFn pdb g.sect g.offset
    let lf ← getLfFromTid pdb.tpi g.typind
    .ok (some (.tpi lf), a)

/-- PDB7._get_proc: look the name up in the procref dict, resolve the
    module via ximod, scan it for the matching named symbol and remap that
    symbol's seg and off. -/
def getProc (pdb : PdbModel) (ref : String) :
    Except PyErr (Option ResolvedLf × Int) :=
  match pyDictGet pdb.glb.refsymbols ref with
  | none => .ok (none, 0)
  | some r => do
    let module ← pyGetI pdb.modules ((r.ximod : Int) - 1)
    match module.find? (fun s => s.name = ref) with
    | some sym =>
      match sym.seg, sym.off with
      | some seg, some off => do
        let a ← remapFn pdb seg off
        .ok (some (.modsym sym), a)
      | _, _ => .error .attributeError
    | none => .ok (none, 0)

/-- PDB7._get_udt: GlobalSymbolStream.get_user_define_typeid then the TPI
    lookup, at address 0. -/
def getUdt (pdb : PdbModel) (ref : String) :
    Except PyErr (Option ResolvedLf × Int) :=
  match (pyDictGet pdb.glb.user_defines ref).map (fun u => u.typind) with
  | none => .ok (none, 0)
  | some tid => do
    let lf ← getLfFromTid pdb.tpi tid
    .ok (some (.tpi lf), 0)

/-- PDB7._get_struct: the TPI name lookup with its KeyError caught. -/
def getStruct (pdb : PdbModel) (ref : String) :
    Except PyErr (Option ResolvedLf × Int) :=
  match tpiGetLfFromName pdb.tpi ref with
  | .ok lf => .ok (some (.tpi lf), 0)
  | .error .keyError => .ok (none, 0)
  | .error e => .error e

/-- PDB7.get_lf_from_name: try _get_glb, _get_proc, _get_udt and
    _get_struct in order, returning the first whose lf is not None (the
    var_offs of every helper is an int, never None), else (None, 0). -/
def pdbGetLfFromName (pdb : PdbModel) (structname : String) :
    Except PyErr (Option ResolvedLf × Int) := do
  let r1 ← getGlb pdb structname
  if r1.1.isSome then .ok r1 else do
  let r2 ← getProc pdb structname
  if r2.1.isSome then .ok r2 else do
  let r3 ← getUdt pdb structname
  if r3.1.isSome then .ok r3 else do
  let r4 ← getStruct pdb structname
  if r4.1.isSome then .ok r4 else
  .ok (none, 0)

/-- The T_INT4 primitive. -/
def tINT4 : BasicType := ⟨"T_INT4", 4, true, false, false, -1⟩

/-- A modifier record wrapping T_INT4 with the const bit set. -/
def modifierScenarioRec : CvRec :=
  ⟨LF_MODIFIER, [("modifiedType", .vint 0x74), ("modifier", .vmods false false true)]⟩

/-- A concrete resolved TPI context exercising every branch of the size and
    layout queries. -/
def tpiCtxScenario : TpiCtx :=
  { typeIndexBegin := 0x1000
    types := [
      (0x1000, mkStructRec false "S" 0x1006 8),
      (0x1001, ⟨LF_POINTER, [("utype", .vint 0x74), ("ptr_attr", .vint 0)]⟩),
      (0x1002, ⟨LF_ENUM, [("count", .vint 0), ("property", .vprop false 0),
        ("utype", .vint 0x74), ("fields", .vint 0x1006), ("name", .vstr "E")]⟩),
      (0x1003, ⟨LF_BITFIELD, [("baseType", .vint 0x74), ("length", .vint 3),
        ("position", .vint 1)]⟩),
      (0x1004, modifierScenarioRec),
      (0x1005, ⟨0x000e, []⟩)] }

/-- A table with two same-named forward references (0x1000 and 0x1001), one
    definition (0x1002) and a pointer whose utype references the first
    fwdref. -/
def c2Table : TypeDict :=
  [(0x1000, mkStructRec true "Foo" 0 0),
   (0x1001, mkStructRec true "Foo" 0 0),
   (0x1002, mkStructRec false "Foo" 0x1003 8),
   (0x1003, ⟨LF_POINTER, [("utype", .vint 0x1000), ("ptr_attr", .vint 0)]⟩)]

/-- A PDB with two global data symbols of distinct names placed at the same
    section and offset (so their remapped addresses collide in the
    offset-to-name map), one section and no OMAP. -/
def pdbScenario : PdbModel :=
  { tpi := { typeIndexBegin := 0x1000, types := [] }
    glb := { s_gdata32 := [⟨0x74, 0x40, 1, "g1"⟩, ⟨0x74, 0x40, 1, "g2"⟩],
             s_ldata32 := [], s_procref := [], s_lprocref := [], s_udt := [] }
    sectsOrig := none, omapFromSrc := none
    sects := [⟨".text", 0, 0x1000, 0, 0, 0, 0, 0, 0, 0⟩], modules := [] }

/-- A PDB with a single global data symbol, one section and no OMAP. -/
def wpdb7 : PdbModel :=
  { tpi := { typeIndexBegin := 0x1000, types := [] }
    glb := { s_gdata32 := [⟨0x74, 0x40, 1, "g1"⟩],
             s_ldata32 := [], s_procref := [], s_lprocref := [], s_udt := [] }
    sectsOrig := none, omapFromSrc := none
    sects := [⟨".text", 0, 0x1000, 0, 0, 0, 0, 0, 0, 0⟩], modules := [] }

/-! Supporting lemmas for the stream and omap claims. -/

theorem bisectLoop_all_gt (a : List Nat) (x : Nat) (hall : ∀ v ∈ a, x < v) :
    ∀ fuel lo hi, hi ≤ a.length → bisectLoop a x fuel lo hi = lo := by
  intro fuel
  induction fuel with
  | zero => intro lo hi _; rfl
  | succ n ih =>
    intro lo hi hle
    by_cases h : lo < hi
    · have hmid : (lo + hi) / 2 < a.length := by omega
      have hv : x < a.getD ((lo + hi) / 2) 0 := by
        have : a.getD ((lo + hi) / 2) 0 = a.get ⟨(lo + hi) / 2, hmid⟩ := by
          simp [List.getD_eq_getElem?_getD, List.getElem?_eq_getElem hmid]
        rw [this]
        exact hall _ (List.get_mem a _ hmid)
      simp only [bisectLoop, if_pos h, if_pos hv]
      exact ih lo ((lo + hi) / 2) (by omega)
    · simp only [bisectLoop, if_neg h]

theorem pyBisect_all_gt (a : List Nat) (x : Nat) (hall : ∀ v ∈ a, x < v) :
    pyBisect a x = 0 :=
  bisectLoop_all_gt a x hall a.length 0 a.length le_rfl

theorem pyGetI_neg_one (l : List α) (h : l ≠ []) :
    pyGetI l (-1) = .ok (l.getLast h) := by
  have hlen : 0 < l.length := List.length_pos.mpr h
  have h0 : ¬ (0 : Int) ≤ -1 := by decide
  have hj : (0 : Int) ≤ (l.length : Int) + -1 := by omega
  have htn : ((l.length : Int) + -1).toNat = l.length - 1 := by omega
  simp only [pyGetI, h0, if_false, hj, if_true, htn, pyGet]
  have hlt : l.length - 1 < l.length := by omega
  simp only [dif_pos hlt]
  congr 1
  exact (List.getLast_eq_get l h).symm

theorem getdata_length_fold (fp : List Nat) (psz : Nat) (pages : List Nat)
    (hin : ∀ p ∈ pages, (p + 1) * psz ≤ fp.length) (acc : List Nat) :
    (pages.foldl (fun data p => data ++ ((fp.drop (p * psz)).take psz)) acc).length
      = acc.length + pages.length * psz := by
  induction pages generalizing acc with
  | nil => simp
  | cons p rest ih =>
    have hp := hin p (List.mem_cons_self _ _)
    have hrest : ∀ q ∈ rest, (q + 1) * psz ≤ fp.length :=
      fun q hq => hin q (List.mem_cons_of_mem _ hq)
    simp only [List.foldl_cons]
    rw [ih hrest]
    have hdl : (fp.drop (p * psz)).length = fp.length - p * psz := List.length_drop _ _
    have htl : ((fp.drop (p * psz)).take psz).length = psz := by
      rw [List.length_take, hdl]
      have : (p + 1) * psz = p * psz + psz := by ring
      omega
    simp only [List.length_append, htl, List.length_cons]
    ring

end PdbParse

namespace PdbParse

/-- C1: the claim states that Stream.getdata returns exactly the first
    byte_sz bytes of the page concatenation.  It does not: for a stream of
    declared size 1 with one 4-byte page over a 4-byte file, getdata returns
    all 4 page bytes, so its length differs from byte_sz. -/
theorem c1_getdata_not_truncated_counterexample :
    Stream.getdata [1, 2, 3, 4] ⟨1, 4, [0]⟩ = [1, 2, 3, 4] ∧
    (Stream.getdata [1, 2, 3, 4] ⟨1, 4, [0]⟩).length ≠ (Stream.mk 1 4 [0]).byte_sz := by
  constructor
  · rfl
  · decide

/-- C1 (amended): Stream.getdata returns the listed pages whole, without
    truncation to the declared size: when every listed page lies inside the
    file, the result length is the page count times the page size, hence at
    least byte_sz whenever the page list covers the declared size. -/
theorem c1_getdata_whole_pages (fp : List Nat) (s : Stream)
    (hin : ∀ p ∈ s.pages, (p + 1) * s.page_sz ≤ fp.length)
    (hcover : s.byte_sz ≤ s.pages.length * s.page_sz) :
    (Stream.getdata fp s).length = s.pages.length * s.page_sz ∧
    s.byte_sz ≤ (Stream.getdata fp s).length := by
  have h := getdata_length_fold fp s.page_sz s.pages hin []
  simp only [List.length_nil, Nat.zero_add] at h
  exact ⟨h, by rw [Stream.getdata, h]; exact hcover⟩

/-- C1 witness: a 5-byte stream stored on two 4-byte pages of an 8-byte file
    comes back as 8 bytes, at least the declared 5. -/
theorem c1_getdata_whole_pages_witness :
    (Stream.getdata [10, 11, 12, 13, 14, 15, 16, 17] ⟨5, 4, [1, 0]⟩).length = 8 ∧
    5 ≤ (Stream.getdata [10, 11, 12, 13, 14, 15, 16, 17] ⟨5, 4, [1, 0]⟩).length := by
  have h := c1_getdata_whole_pages [10, 11, 12, 13, 14, 15, 16, 17] ⟨5, 4, [1, 0]⟩
    (by decide) (by decide)
  exact ⟨h.1, h.2⟩

/-- C3: the first two scenario queries remap as the claim states, but the
    third query 0x3005 lies at or beyond the last From, so bisect returns the
    table length and the lookup froms[pos] raises IndexError instead of
    returning 0x7005: the code crashes where the claim requires a value. -/
theorem c3_remap_indexerror_past_last_from :
    Omap.remap omapScenario 0x1010 = .ok 0x5010 ∧
    Omap.remap omapScenario 0x2100 = .ok 0 ∧
    Omap.remap omapScenario 0x3005 = .error .indexError := by
  refine ⟨rfl, rfl, rfl⟩

/-- C10: for a query strictly below every From of a non-empty OMAP table, the
    decremented bisect position is -1, which Python indexing wraps to the
    last entry: remap returns 0 when the last To is zero and otherwise
    lastTo + (address - lastFrom). -/
theorem c10_remap_below_first_wraps_to_last (omap : List OmapEntry) (address : Nat)
    (hne : omap ≠ [])
    (hall : ∀ e ∈ omap, address < e.From) :
    Omap.remap omap address =
      .ok (if (omap.getLast hne).To = 0 then 0
           else ((omap.getLast hne).To : Int) +
                ((address : Int) - ((omap.getLast hne).From : Int))) := by
  have hfall : ∀ v ∈ omap.map (fun o => o.From), address < v := by
    intro v hv
    rcases List.mem_map.mp hv with ⟨e, he, rfl⟩
    exact hall e he
  have hb : pyBisect (omap.map (fun o => o.From)) address = 0 :=
    pyBisect_all_gt _ _ hfall
  have hlen : 0 < omap.length := List.length_pos.mpr hne
  have hmlen : 0 < (omap.map (fun o => o.From)).length := by
    simpa using hlen
  have hget0 : pyGet (omap.map (fun o => o.From)) 0 =
      .ok ((omap.map (fun o => o.From)).get ⟨0, hmlen⟩) := by
    unfold pyGet
    rw [dif_pos hmlen]
  have hne0 : (omap.map (fun o => o.From)).get ⟨0, hmlen⟩ ≠ address := by
    have hmem : (omap.map (fun o => o.From)).get ⟨0, hmlen⟩ ∈ omap.map (fun o => o.From) :=
      List.get_mem _ _ hmlen
    have := hfall _ hmem
    omega
  have hwrap : pyGetI omap (((0 : Nat) : Int) - 1) = .ok (omap.getLast hne) := by
    have h01 : (((0 : Nat) : Int) - 1) = -1 := by norm_num
    rw [h01]
    exact pyGetI_neg_one omap hne
  simp only [Omap.remap, hb, hget0, if_pos hne0, hwrap]
  split_ifs with hz <;> simp [hz]

/-- C10 witness: the scenario table queried at 0x500 (below the first From
    0x1000) wraps to the last entry (0x3000 to 0x7000) and yields
    0x7000 + (0x500 - 0x3000) = 0x4500. -/
theorem c10_remap_below_first_witness :
    Omap.remap omapScenario 0x500 = .ok 0x4500 := by
  have h := c10_remap_below_first_wraps_to_last omapScenario 0x500
    (by decide) (by decide)
  simpa using h

theorem pCStringBytes_append (nm rest : List Nat) (h : ∀ c ∈ nm, c ≠ 0) :
    pCStringBytes (nm ++ 0 :: rest) = some (nm, rest) := by
  induction nm with
  | nil => simp [pCStringBytes]
  | cons b t ih =>
    have hb : b ≠ 0 := h b (List.mem_cons_self _ _)
    have ht : ∀ c ∈ t, c ≠ 0 := fun c hc => h c (List.mem_cons_of_mem _ hc)
    simp [pCStringBytes, hb, ih ht]

/-- C4: the inline numeric leaf followed by a name decodes as claimed: a raw
    u16 below 0x8000 is the value itself, and each of the seven
    discriminators reads a value of the tagged width and signedness followed
    by the zero-terminated name; in particular the bytes
    0x8003 0x01 0x00 0x00 0x80 followed by the string name and a NUL decode
    to value -2147483647 with name "name". -/
theorem c4_numeric_leaf_decoding :
    (∀ b0 b1 nm rest, b0 + 0x100 * b1 < 0x8000 → (∀ c ∈ nm, c ≠ 0) →
      numericLeafValue (b0 :: b1 :: (nm ++ 0 :: rest)) =
        some (((b0 + 0x100 * b1 : Nat) : Int), strOfBytes nm, rest)) ∧
    (∀ v nm rest, (∀ c ∈ nm, c ≠ 0) →
      numericLeafValue (0x00 :: 0x80 :: v :: (nm ++ 0 :: rest)) =
        some (toSigned 8 v, strOfBytes nm, rest)) ∧
    (∀ c0 c1 nm rest, (∀ c ∈ nm, c ≠ 0) →
      numericLeafValue (0x01 :: 0x80 :: c0 :: c1 :: (nm ++ 0 :: rest)) =
        some (toSigned 16 (c0 + 0x100 * c1), strOfBytes nm, rest)) ∧
    (∀ c0 c1 nm rest, (∀ c ∈ nm, c ≠ 0) →
      numericLeafValue (0x02 :: 0x80 :: c0 :: c1 :: (nm ++ 0 :: rest)) =
        some (((c0 + 0x100 * c1 : Nat) : Int), strOfBytes nm, rest)) ∧
    (∀ c0 c1 c2 c3 nm rest, (∀ c ∈ nm, c ≠ 0) →
      numericLeafValue (0x03 :: 0x80 :: c0 :: c1 :: c2 :: c3 :: (nm ++ 0 :: rest)) =
        some (toSigned 32 (c0 + 0x100 * c1 + 0x10000 * c2 + 0x1000000 * c3),
          strOfBytes nm, rest)) ∧
    (∀ c0 c1 c2 c3 nm rest, (∀ c ∈ nm, c ≠ 0) →
      numericLeafValue (0x04 :: 0x80 :: c0 :: c1 :: c2 :: c3 :: (nm ++ 0 :: rest)) =
        some (((c0 + 0x100 * c1 + 0x10000 * c2 + 0x1000000 * c3 : Nat) : Int),
          strOfBytes nm, rest)) ∧
    (∀ c0 c1 c2 c3 c4 c5 c6 c7 nm rest, (∀ c ∈ nm, c ≠ 0) →
      numericLeafValue
          (0x09 :: 0x80 :: c0 :: c1 :: c2 :: c3 :: c4 :: c5 :: c6 :: c7 ::
            (nm ++ 0 :: rest)) =
        some (toSigned 64 (c0 + 0x100 * c1 + 0x10000 * c2 + 0x1000000 * c3 +
            0x100000000 * c4 + 0x10000000000 * c5 + 0x1000000000000 * c6 +
            0x100000000000000 * c7), strOfBytes nm, rest)) ∧
    (∀ c0 c1 c2 c3 c4 c5 c6 c7 nm rest, (∀ c ∈ nm, c ≠ 0) →
      numericLeafValue
          (0x0a :: 0x80 :: c0 :: c1 :: c2 :: c3 :: c4 :: c5 :: c6 :: c7 ::
            (nm ++ 0 :: rest)) =
        some (((c0 + 0x100 * c1 + 0x10000 * c2 + 0x1000000 * c3 +
            0x100000000 * c4 + 0x10000000000 * c5 + 0x1000000000000 * c6 +
            0x100000000000000 * c7 : Nat) : Int), strOfBytes nm, rest)) ∧
    numericLeafValue [0x03, 0x80, 0x01, 0x00, 0x00, 0x80, 0x6E, 0x61, 0x6D, 0x65, 0x00] =
      some (-2147483647, "name", []) := by
  refine ⟨?_, ?_, ?_, ?_, ?_, ?_, ?_, ?_, by decide⟩ <;>
    first
    | (intro b0 b1 nm rest hv h
       simp [numericLeafValue, sRawParse, pU16, LF_CHAR, hv,
         pCStringBytes_append nm rest h, insertFieldOfRaw, getAttr, setAttr,
         pyDictGet, pyDictInsert])
    | (intro v nm rest h
       simp [numericLeafValue, sRawParse, sRawNum, pU16, pU8, LF_CHAR, LF_SHORT,
         LF_USHORT, LF_LONG, LF_ULONG, LF_QUADWORD, LF_UQUADWORD,
         pCStringBytes_append nm rest h, insertFieldOfRaw, getAttr, setAttr,
         pyDictGet, pyDictInsert])
    | (intro c0 c1 nm rest h
       simp [numericLeafValue, sRawParse, sRawNum, pU16, LF_CHAR, LF_SHORT,
         LF_USHORT, LF_LONG, LF_ULONG, LF_QUADWORD, LF_UQUADWORD,
         pCStringBytes_append nm rest h, insertFieldOfRaw, getAttr, setAttr,
         pyDictGet, pyDictInsert])
    | (intro c0 c1 c2 c3 nm rest h
       simp [numericLeafValue, sRawParse, sRawNum, pU16, pU32, LF_CHAR, LF_SHORT,
         LF_USHORT, LF_LONG, LF_ULONG, LF_QUADWORD, LF_UQUADWORD,
         pCStringBytes_append nm rest h, insertFieldOfRaw, getAttr, setAttr,
         pyDictGet, pyDictInsert])
    | (intro c0 c1 c2 c3 c4 c5 c6 c7 nm rest h
       simp [numericLeafValue, sRawParse, sRawNum, pU16, pU64, LF_CHAR, LF_SHORT,
         LF_USHORT, LF_LONG, LF_ULONG, LF_QUADWORD, LF_UQUADWORD,
         pCStringBytes_append nm rest h, insertFieldOfRaw, getAttr, setAttr,
         pyDictGet, pyDictInsert])

/-- C4 witness: the raw-u16 case of the theorem at the concrete bytes
    0x0008 followed by the name ab: value 8, name "ab". -/
theorem c4_numeric_leaf_decoding_witness :
    numericLeafValue [0x08, 0x00, 0x61, 0x62, 0x00] = some (8, "ab", []) := by
  have h := c4_numeric_leaf_decoding.1 0x08 0x00 [0x61, 0x62] [] (by decide) (by decide)
  simpa [strOfBytes] using h

/-- C8: parsing a record of unknown leaf kind 0x0999 does not fail and the
    next record parses from the declared length, but the record is retained
    with data None: its two payload bytes 0xAA 0xBB are skipped and stored
    nowhere, contradicting the claim that the raw payload bytes are
    retained. -/
theorem c8_unknown_leaf_payload_dropped_counterexample :
    tpiParse 2 [0x04, 0x00, 0x99, 0x09, 0xAA, 0xBB,
                0x0A, 0x00, 0x02, 0x10, 0x74, 0x00, 0x00, 0x00, 0x0C, 0x00, 0x00, 0x00] =
      .ok [⟨4, 0x999, Option.none⟩,
           ⟨10, 0x1002, some [("utype", .vint 0x74), ("ptr_attr", .vint 0x0C)]⟩] := rfl

/-- C8 (amended): a record whose leaf kind is not among the fourteen decoded
    kinds does not fail parsing: it is retained with its declared length and
    its numeric kind but with data None (the payload bytes are consumed via
    the declared length and dropped), and the parse resumes exactly at the
    following record. -/
theorem c8_unknown_leaf_retained_opaque (l0 l1 k0 k1 : Nat) (payload rest : List Nat)
    (hlen : 2 ≤ l0 + 0x100 * l1)
    (hpl : payload.length = l0 + 0x100 * l1 - 2)
    (hk : (k0 + 0x100 * k1) ∉
      [LF_ARRAY, LF_ARRAY_ST, LF_MODIFIER, LF_BITFIELD, LF_ENUM, LF_FIELDLIST,
       LF_CLASS, LF_STRUCTURE, LF_STRUCTURE_ST, LF_UNION, LF_UNION_ST, LF_POINTER,
       LF_PROCEDURE, LF_ARGLIST]) :
    pTypType (l0 :: l1 :: k0 :: k1 :: (payload ++ rest)) =
      .ok (⟨l0 + 0x100 * l1, k0 + 0x100 * k1, Option.none⟩, rest) := by
  simp only [List.mem_cons, List.not_mem_nil, or_false, not_or] at hk
  obtain ⟨h1, h2, h3, h4, h5, h6, h7, h8, h9, h10, h11, h12, h13, h14⟩ := hk
  have hcond : 2 ≤ l0 + 0x100 * l1 ∧
      l0 + 0x100 * l1 - 2 ≤ (payload ++ rest).length := by
    refine ⟨hlen, ?_⟩
    rw [List.length_append, ← hpl]
    omega
  have htake : (payload ++ rest).take (l0 + 0x100 * l1 - 2) = payload :=
    List.take_left' hpl
  have hdrop : (payload ++ rest).drop (l0 + 0x100 * l1 - 2) = rest :=
    List.drop_left' hpl
  simp only [pTypType, pU16, if_pos hcond, htake, hdrop,
    decodeLeafData, if_neg h1, if_neg h2, if_neg h3, if_neg h4, if_neg h5,
    if_neg h6, if_neg h7, if_neg h8, if_neg h9, if_neg h10, if_neg h11,
    if_neg h12, if_neg h13, if_neg h14]

/-- C8 witness: a record of kind 0x000a (LF_VTSHAPE, a kind the Switch does
    not decode) with a 3-byte payload is retained opaque and the parse
    resumes at the trailing byte. -/
theorem c8_unknown_leaf_retained_opaque_witness :
    pTypType [5, 0, 0x0a, 0, 1, 2, 3, 9] =
      .ok (⟨5, 0x0a, Option.none⟩, [9]) := by
  have h := c8_unknown_leaf_retained_opaque 5 0 0x0a 0 [1, 2, 3] [9]
    (by decide) (by decide) (by decide)
  simpa using h

/-! Dict and attribute lemmas supporting the forward-reference and resolver
claims. -/

theorem find?_map_update [DecidableEq κ] (d : List (κ × α)) (k k' : κ) (v : α) :
    (d.map (fun p => if p.1 = k then (k, v) else p)).find? (fun p => p.1 = k')
      = if k' = k then (d.find? (fun p => p.1 = k)).map (fun _ => (k, v))
        else d.find? (fun p => p.1 = k') := by
  induction d with
  | nil => by_cases hk : k' = k <;> simp [hk]
  | cons p t ih =>
    by_cases hp : p.1 = k
    · have hmap : (if p.1 = k then (k, v) else p) = (k, v) := if_pos hp
      simp only [List.map_cons, hmap, List.find?_cons]
      by_cases hk : k' = k
      · subst hk
        simp [hp]
      · have hk2 : ¬ (k = k') := fun h => hk h.symm
        simp [hk, hk2, hp, ih]
    · have hmap : (if p.1 = k then (k, v) else p) = p := if_neg hp
      simp only [List.map_cons, hmap, List.find?_cons]
      by_cases hpk' : p.1 = k'
      · by_cases hk : k' = k
        · exact absurd (hpk'.trans hk) hp
        · simp [hpk', hk]
      · by_cases hk : k' = k
        · subst hk
          simp [hp, hpk', ih]
        · simp [hp, hpk', hk, ih]

theorem pyDictGet_insert [DecidableEq κ] (d : List (κ × α)) (k k' : κ) (v : α) :
    pyDictGet (pyDictInsert d k v) k' = if k' = k then some v else pyDictGet d k' := by
  unfold pyDictInsert pyDictGet
  cases hany : d.any (fun p => p.1 = k) with
  | true =>
    simp only [hany, if_true]
    rw [find?_map_update]
    by_cases hk : k' = k
    · rw [if_pos hk, if_pos hk]
      obtain ⟨q, hq, hqk⟩ := List.any_eq_true.mp hany
      have hs : ∃ r, d.find? (fun p => p.1 = k) = some r := by
        cases hf : d.find? (fun p => p.1 = k) with
        | some r => exact ⟨r, rfl⟩
        | none =>
          rw [List.find?_eq_none] at hf
          exact absurd hqk (by simpa using hf q hq)
      obtain ⟨r, hr⟩ := hs
      simp [hr]
    · rw [if_neg hk, if_neg hk]
  | false =>
    simp only [Bool.false_eq_true, if_false]
    by_cases hk : k' = k
    · rw [if_pos hk, hk]
      have hnone : d.find? (fun p => p.1 = k) = none := by
        rw [List.find?_eq_none]
        intro x hx
        have := List.any_eq_false.mp hany x hx
        simpa using this
      rw [List.find?_append, hnone]
      simp
    · rw [if_neg hk]
      rw [List.find?_append]
      cases hf : d.find? (fun p => p.1 = k') with
      | some r => simp [hf]
      | none =>
        have : ¬ ((k, v).1 = k') := fun h => hk (h.symm)
        simp [hf, this]

theorem writesKey_of_some [DecidableEq κ] {f : β → Option (κ × α)} {e : β}
    {kv : κ × α} (k : κ) (hf : f e = some kv) :
    writesKey f k e = decide (kv.1 = k) := by
  unfold writesKey
  rw [hf]

theorem writesKey_of_none [DecidableEq κ] {f : β → Option (κ × α)} {e : β}
    (k : κ) (hf : f e = none) : writesKey f k e = false := by
  unfold writesKey
  rw [hf]

theorem pyDictComp_fold_get [DecidableEq κ] (f : β → Option (κ × α)) (l : List β)
    (init : List (κ × α)) (k : κ) :
    pyDictGet (l.foldl (fun m e => match f e with
        | some kv => pyDictInsert m kv.1 kv.2
        | none => m) init) k
      = match (l.filter (writesKey f k)).getLast? with
        | some e => (f e).map (fun kv => kv.2)
        | none => pyDictGet init k := by
  induction l generalizing init with
  | nil => simp
  | cons e t ih =>
    simp only [List.foldl_cons, List.filter_cons]
    cases hf : f e with
    | none =>
      simp only [hf, writesKey_of_none k hf, Bool.false_eq_true, if_false]
      exact ih init
    | some kv =>
      simp only [hf, writesKey_of_some k hf]
      by_cases hk : kv.1 = k
      · rw [if_pos (by simpa using hk)]
        rw [ih, List.getLast?_cons]
        cases hc : (t.filter (writesKey f k)).getLast? with
        | some e' => simp
        | none =>
          simp only [Option.getD_none]
          rw [pyDictGet_insert]
          rw [if_pos hk.symm, hf]
          rfl
      · rw [if_neg (by simpa using hk)]
        rw [ih]
        cases hc : (t.filter (writesKey f k)).getLast? with
        | some e' => rfl
        | none =>
          rw [pyDictGet_insert]
          rw [if_neg (fun h => hk h.symm)]

theorem pyDictComp_get [DecidableEq κ] (f : β → Option (κ × α)) (l : List β) (k : κ) :
    pyDictGet (pyDictComp l f) k
      = match (l.filter (writesKey f k)).getLast? with
        | some e => (f e).map (fun kv => kv.2)
        | none => none := by
  unfold pyDictComp
  rw [pyDictComp_fold_get]
  cases (l.filter (writesKey f k)).getLast? with
  | some e => rfl
  | none => simp [pyDictGet]

theorem pyDictGet_mem_of_some [DecidableEq κ] {d : List (κ × α)} {k : κ} {v : α}
    (h : pyDictGet d k = some v) : (k, v) ∈ d := by
  unfold pyDictGet at h
  cases hf : d.find? (fun p => p.1 = k) with
  | none => rw [hf] at h; simp at h
  | some r =>
    rw [hf] at h
    have hr := List.find?_some hf
    have hm := List.mem_of_find?_eq_some hf
    obtain ⟨r1, r2⟩ := r
    have hk : r1 = k := by simpa using hr
    have hv : r2 = v := by simpa using h
    rw [← hk, ← hv]
    exact hm

theorem pyDictGet_eq_none_iff [DecidableEq κ] {d : List (κ × α)} {k : κ} :
    pyDictGet d k = none ↔ ∀ p ∈ d, p.1 ≠ k := by
  unfold pyDictGet
  constructor
  · intro h p hp
    cases hf : d.find? (fun p => p.1 = k) with
    | some r => rw [hf] at h; simp at h
    | none =>
      rw [List.find?_eq_none] at hf
      have := hf p hp
      simpa using this
  · intro h
    have : d.find? (fun p => p.1 = k) = none := by
      rw [List.find?_eq_none]
      intro p hp
      simpa using h p hp
    simp [this]

theorem nodup_keys_val_eq {td : List (κ × α)} (hkeys : (td.map Prod.fst).Nodup)
    {i : κ} {a b : α} (ha : (i, a) ∈ td) (hb : (i, b) ∈ td) : a = b := by
  induction td with
  | nil => cases ha
  | cons p t ih =>
    simp only [List.map_cons, List.nodup_cons] at hkeys
    rcases List.mem_cons.mp ha with ha1 | ha1 <;>
      rcases List.mem_cons.mp hb with hb1 | hb1
    · exact congrArg Prod.snd (ha1.trans hb1.symm)
    · exfalso
      apply hkeys.1
      have hmem : (i, b).1 ∈ t.map Prod.fst := List.mem_map_of_mem Prod.fst hb1
      have hp1 : p.1 = i := (congrArg Prod.fst ha1).symm
      rw [hp1]
      simpa using hmem
    · exfalso
      apply hkeys.1
      have hmem : (i, a).1 ∈ t.map Prod.fst := List.mem_map_of_mem Prod.fst ha1
      have hp1 : p.1 = i := (congrArg Prod.fst hb1).symm
      rw [hp1]
      simpa using hmem
    · exact ih hkeys.2 ha1 hb1

theorem getLast?_mem_of_ne_nil {l : List γ} (h : l ≠ []) :
    ∃ e, l.getLast? = some e ∧ e ∈ l :=
  ⟨l.getLast h, List.getLast?_eq_getLast l h, List.getLast_mem h⟩

theorem buildFwdrefs_get_of_mem {td : TypeDict}
    (huniq : ∀ p ∈ td, ∀ q ∈ td, isFwdref p.2 = true → isFwdref q.2 = true →
      recName p.2 = recName q.2 → p.1 = q.1)
    {i : Nat} {t : CvRec} (hmem : (i, t) ∈ td) (hf : isFwdref t = true) :
    pyDictGet (buildFwdrefs td) (recName t) = some i := by
  unfold buildFwdrefs
  rw [pyDictComp_get]
  have hw : writesKey fwdrefEntry (recName t) (i, t) = true := by
    simp [writesKey, fwdrefEntry, hf]
  have hPmem : (i, t) ∈ td.filter (writesKey fwdrefEntry (recName t)) :=
    List.mem_filter.mpr ⟨hmem, hw⟩
  obtain ⟨e, hle, hemem⟩ := getLast?_mem_of_ne_nil (List.ne_nil_of_mem hPmem)
  rw [hle]
  obtain ⟨hetd, hPe⟩ := List.mem_filter.mp hemem
  by_cases hfe : isFwdref e.2 = true
  · have hname : recName e.2 = recName t := by
      simp [writesKey, fwdrefEntry, hfe] at hPe
      exact hPe
    have hei : e.1 = i := huniq e hetd (i, t) hmem hfe hf hname
    simp [fwdrefEntry, hfe, hei]
  · simp [writesKey, fwdrefEntry, hfe] at hPe

theorem buildFwdrefs_get_some {td : TypeDict} {n : String} {i : Nat}
    (h : pyDictGet (buildFwdrefs td) n = some i) :
    ∃ t, (i, t) ∈ td ∧ isFwdref t = true ∧ recName t = n := by
  unfold buildFwdrefs at h
  rw [pyDictComp_get] at h
  cases hle : (td.filter (writesKey fwdrefEntry n)).getLast? with
  | none => rw [hle] at h; cases h
  | some e =>
    rw [hle] at h
    have hemem : e ∈ td.filter (writesKey fwdrefEntry n) := by
      have hne : td.filter (writesKey fwdrefEntry n) ≠ [] := by
        intro hnil
        rw [hnil] at hle
        cases hle
      obtain ⟨e', hle', hmem'⟩ := getLast?_mem_of_ne_nil hne
      rw [hle'] at hle
      cases hle
      exact hmem'
    obtain ⟨hetd, hPe⟩ := List.mem_filter.mp hemem
    by_cases hfe : isFwdref e.2 = true
    · have hname : recName e.2 = n := by
        simp [writesKey, fwdrefEntry, hfe] at hPe
        exact hPe
      have hval : e.1 = i := by
        simp [fwdrefEntry, hfe] at h
        exact h
      refine ⟨e.2, ?_, hfe, hname⟩
      rw [← hval]
      simpa using hetd
    · simp [writesKey, fwdrefEntry, hfe] at hPe

theorem buildFwdrefsMap_get {td : TypeDict} {i : Nat}
    (hw : ∃ q ∈ td, (hasName q.2 && hasProp q.2 && !isFwdref q.2) = true ∧
      pyDictGet (buildFwdrefs td) (recName q.2) = some i) :
    ∃ j d, pyDictGet (buildFwdrefsMap td) i = some j ∧ (j, d) ∈ td ∧
      (hasName d && hasProp d && !isFwdref d) = true ∧
      pyDictGet (buildFwdrefs td) (recName d) = some i := by
  obtain ⟨q, hqtd, hqc, hqget⟩ := hw
  unfold buildFwdrefsMap
  rw [pyDictComp_get]
  have hwq : writesKey (fwdrefsMapEntry (buildFwdrefs td)) i q = true := by
    simp [writesKey, fwdrefsMapEntry, hqc, hqget]
  have hqf : q ∈ td.filter (writesKey (fwdrefsMapEntry (buildFwdrefs td)) i) :=
    List.mem_filter.mpr ⟨hqtd, hwq⟩
  obtain ⟨e, hle, hemem⟩ := getLast?_mem_of_ne_nil (List.ne_nil_of_mem hqf)
  rw [hle]
  obtain ⟨hetd, hPe⟩ := List.mem_filter.mp hemem
  cases hee : fwdrefsMapEntry (buildFwdrefs td) e with
  | none =>
    rw [writesKey_of_none i hee] at hPe
    cases hPe
  | some kv =>
    rw [writesKey_of_some i hee] at hPe
    have hkv1 : kv.1 = i := by simpa using hPe
    unfold fwdrefsMapEntry at hee
    by_cases hc : (hasName e.2 && hasProp e.2 && !isFwdref e.2) = true
    · rw [if_pos hc] at hee
      cases hg : pyDictGet (buildFwdrefs td) (recName e.2) with
      | none => rw [hg] at hee; cases hee
      | some fi =>
        rw [hg] at hee
        have hkv : kv = (fi, e.1) := by
          injection hee with h1
          exact h1.symm
        have hfi : fi = i := by rw [hkv] at hkv1; simpa using hkv1
        refine ⟨e.1, e.2, ?_, by simpa using hetd, hc, ?_⟩
        · have : fwdrefsMapEntry (buildFwdrefs td) e = some (fi, e.1) := by
            unfold fwdrefsMapEntry
            rw [if_pos hc, hg]
          simp [this]
        · rw [hg, hfi]
    · rw [if_neg hc] at hee
      cases hee

theorem getAttr_setAttr (t : Attrs) (a a' : String) (v : PyVal) :
    getAttr (setAttr t a v) a' = if a' = a then some v else getAttr t a' :=
  pyDictGet_insert t a a' v

theorem getAttr_refStep (m : List (Nat × Nat)) (attrs : Attrs) (a a' : String) :
    getAttr (refStep m attrs a) a' =
      if a' = a then rwVal m (getAttr attrs a) else getAttr attrs a' := by
  unfold refStep
  by_cases h : a' = a
  · subst h
    cases hg : getAttr attrs a' with
    | none => simp [hg, rwVal]
    | some v => cases v <;> simp [hg, rwVal, getAttr_setAttr]
  · cases hg : getAttr attrs a with
    | none => simp [hg, rwVal, h]
    | some v => cases v <;> simp [hg, rwVal, getAttr_setAttr, h]

theorem getAttr_foldl_refStep_not_mem (m : List (Nat × Nat)) (l : List String)
    (attrs : Attrs) (a : String) (h : a ∉ l) :
    getAttr (l.foldl (refStep m) attrs) a = getAttr attrs a := by
  induction l generalizing attrs with
  | nil => rfl
  | cons b t ih =>
    have hb : a ≠ b := fun he => h (he ▸ List.mem_cons_self b t)
    rw [List.foldl_cons]
    rw [ih (refStep m attrs b) (fun hm => h (List.mem_cons_of_mem b hm))]
    rw [getAttr_refStep, if_neg hb]

theorem getAttr_foldl_refStep_mem (m : List (Nat × Nat)) :
    ∀ (l : List String) (attrs : Attrs) (a : String), l.Nodup → a ∈ l →
      getAttr (l.foldl (refStep m) attrs) a = rwVal m (getAttr attrs a)
  | [], _, a, _, h => absurd h (List.not_mem_nil a)
  | b :: t, attrs, a, hnd, h => by
    rw [List.foldl_cons]
    rcases List.mem_cons.mp h with hab | hat
    · subst hab
      rw [getAttr_foldl_refStep_not_mem m t _ a (List.nodup_cons.mp hnd).1]
      rw [getAttr_refStep, if_pos rfl]
    · rw [getAttr_foldl_refStep_mem m t (refStep m attrs b) a
        (List.nodup_cons.mp hnd).2 hat]
      congr 1
      rw [getAttr_refStep,
        if_neg (fun he => (List.nodup_cons.mp hnd).1 (by rw [← he]; exact hat))]

theorem refAttrList_nodup (b : Bool) (kind : Nat) : (refAttrList b kind).Nodup := by
  unfold refAttrList
  cases b
  · cases hg : pyDictGet TypRefAttrs kind with
    | none => simp [hg]
    | some l =>
      have hall : ∀ p ∈ TypRefAttrs, p.2.Nodup := by decide
      have h2 := hall _ (pyDictGet_mem_of_some hg)
      simpa [hg] using h2
  · cases hg : pyDictGet FieldsRefAttrs kind with
    | none => simp [hg]
    | some l =>
      have hall : ∀ p ∈ FieldsRefAttrs, p.2.Nodup := by decide
      have h2 := hall _ (pyDictGet_mem_of_some hg)
      simpa [hg] using h2

theorem property_not_mem_refAttrList (b : Bool) (kind : Nat) :
    "property" ∉ refAttrList b kind := by
  unfold refAttrList
  cases b
  · cases hg : pyDictGet TypRefAttrs kind with
    | none => simp [hg]
    | some l =>
      have hall : ∀ p ∈ TypRefAttrs, "property" ∉ p.2 := by decide
      have h2 := hall _ (pyDictGet_mem_of_some hg)
      simpa [hg] using h2
  · cases hg : pyDictGet FieldsRefAttrs kind with
    | none => simp [hg]
    | some l =>
      have hall : ∀ p ∈ FieldsRefAttrs, "property" ∉ p.2 := by decide
      have h2 := hall _ (pyDictGet_mem_of_some hg)
      simpa [hg] using h2

theorem getAttr_fowardRefs_property (m : List (Nat × Nat)) (b : Bool) (t : CvRec) :
    getAttr (fowardRefs m b t).attrs "property" = getAttr t.attrs "property" := by
  unfold fowardRefs
  exact getAttr_foldl_refStep_not_mem m _ t.attrs "property"
    (property_not_mem_refAttrList b t.leafKind)

theorem isFwdref_fowardRefs (m : List (Nat × Nat)) (b : Bool) (t : CvRec) :
    isFwdref (fowardRefs m b t) = isFwdref t := by
  unfold isFwdref
  rw [getAttr_fowardRefs_property]

theorem pyDictGet_map_preserve [DecidableEq κ] (g : (κ × α) → (κ × α))
    (l : List (κ × α)) (a : κ)
    (hkey : ∀ p, (g p).1 = p.1) (hfix : ∀ p, p.1 = a → g p = p) :
    pyDictGet (l.map g) a = pyDictGet l a := by
  induction l with
  | nil => rfl
  | cons p t ih =>
    unfold pyDictGet at ih ⊢
    by_cases hp : p.1 = a
    · have hga : (g p).1 = a := by rw [hkey p, hp]
      simp [List.find?_cons, hga, hp, hfix p hp]
    · have hga : ¬ (g p).1 = a := by rw [hkey p]; exact hp
      simp only [List.map_cons, List.find?_cons]
      rw [show (decide ((g p).1 = a)) = false by simpa using hga]
      rw [show (decide (p.1 = a)) = false by simpa using hp]
      exact ih

theorem isFwdref_resolveRecord (m : List (Nat × Nat)) (t : CvRec) :
    isFwdref (resolveRecord m t) = isFwdref t := by
  unfold resolveRecord
  by_cases hk : t.leafKind = LF_FIELDLIST
  · rw [if_pos hk]
    unfold isFwdref
    have h : getAttr (CvRec.mk t.leafKind (t.attrs.map (resolveFieldsAttr m))).attrs
        "property" = getAttr t.attrs "property" := by
      show pyDictGet (t.attrs.map (resolveFieldsAttr m)) "property"
        = pyDictGet t.attrs "property"
      apply pyDictGet_map_preserve
      · intro p
        unfold resolveFieldsAttr
        by_cases hp : p.1 = "fields"
        · rw [if_pos hp]
          cases p.2 <;> simp [hp]
        · rw [if_neg hp]
      · intro p hp
        unfold resolveFieldsAttr
        have : ¬ p.1 = "fields" := by rw [hp]; decide
        rw [if_neg this]
    rw [h]
  · rw [if_neg hk]
    exact isFwdref_fowardRefs m false t

theorem any_key_of_get_some [DecidableEq κ] {m : List (κ × α)} {i : κ} {j : α}
    (h : pyDictGet m i = some j) : m.any (fun q => q.1 = i) = true :=
  List.any_eq_true.mpr ⟨(i, j), pyDictGet_mem_of_some h, by simp⟩

theorem pyDictGet_resolveFwdrefs_none {td : TypeDict} {i : Nat}
    (h : (buildFwdrefsMap td).any (fun q => q.1 = i) = true) :
    pyDictGet (resolveFwdrefs td) i = none := by
  unfold resolveFwdrefs
  rw [pyDictGet_eq_none_iff]
  intro p hp hpi
  have hpred := (List.mem_filter.mp hp).2
  rw [hpi] at hpred
  rw [h] at hpred
  cases hpred

theorem resolveFwdrefs_mem {td : TypeDict} {p : Nat × CvRec}
    (hp : p ∈ resolveFwdrefs td) :
    ∃ u0, (p.1, u0) ∈ td ∧ p.2 = resolveRecord (buildFwdrefsMap td) u0 ∧
      (buildFwdrefsMap td).any (fun q => q.1 = p.1) = false := by
  unfold resolveFwdrefs at hp
  have hf := List.mem_filter.mp hp
  obtain ⟨q0, hq0, hq0e⟩ := List.mem_map.mp hf.1
  have h1 : p.1 = q0.1 := (congrArg Prod.fst hq0e).symm
  have h2 : p.2 = resolveRecord (buildFwdrefsMap td) q0.2 :=
    (congrArg Prod.snd hq0e).symm
  refine ⟨q0.2, ?_, h2, ?_⟩
  · rw [h1]
    simpa using hq0
  · have := hf.2
    rw [Bool.not_eq_true'] at this
    simpa using this

theorem refRewrite_of_get {m : List (Nat × Nat)} {i : Nat} {j : Nat}
    (h : pyDictGet m i = some j) : refRewrite m (i : Int) = (j : Int) := by
  unfold refRewrite
  unfold pyDictGet at h
  have heq : (fun p : Nat × Nat => decide ((p.1 : Int) = (i : Nat))) =
      (fun p : Nat × Nat => decide (p.1 = i)) := by
    funext p
    rw [decide_eq_decide]
    exact Int.natCast_inj
  rw [heq]
  cases hfind : m.find? (fun p => decide (p.1 = i)) with
  | none => rw [hfind] at h; cases h
  | some r =>
    rw [hfind] at h
    have : r.2 = j := by simpa using h
    simp [this]

/-- C2: the claim fails when two forward references share a name.  In
    c2Table, 0x1000 and 0x1001 are both fwdrefs named Foo and 0x1002 is the
    same-named definition, so 0x1000 is a fwdref for which a same-named
    non-fwdref definition exists; yet after resolution 0x1000 is still
    present in the table (looking it up does not raise), it still carries
    property.fwdref, and the surviving pointer record 0x1003 still holds the
    reference 0x1000 in its utype attribute.  Only the last same-named
    fwdref (0x1001) was mapped and deleted. -/
theorem c2_duplicate_fwdref_counterexample :
    pyDictGet (resolveFwdrefs c2Table) 0x1000 = some (mkStructRec true "Foo" 0 0) ∧
    isFwdref (mkStructRec true "Foo" 0 0) = true ∧
    isFwdref (mkStructRec false "Foo" 0x1003 8) = false ∧
    recName (mkStructRec false "Foo" 0x1003 8) = recName (mkStructRec true "Foo" 0 0) ∧
    pyDictGet c2Table 0x1002 = some (mkStructRec false "Foo" 0x1003 8) ∧
    pyDictGet (resolveFwdrefs c2Table) 0x1003 =
      some ⟨LF_POINTER, [("utype", .vint 0x1000), ("ptr_attr", .vint 0)]⟩ :=
  ⟨rfl, rfl, rfl, rfl, rfl, rfl⟩

/-- C2 (amended): on a table whose fwdref records have pairwise-distinct
    names and all have same-named non-fwdref definitions, load_body's
    resolution behaves as the claim states: the fwdref map (and hence the
    _foward_refs rewrite) sends the fwdref index to a same-named non-fwdref
    definition's index, every reference attribute listed for a record's kind
    is rewritten through the map (in fieldlist sub-records via
    FieldsRefAttrs and elsewhere via TypRefAttrs), the fwdref index is
    deleted from the table, and no surviving record carries
    property.fwdref. -/
theorem c2_fwdref_resolution_amended (td : TypeDict)
    (hkeys : (td.map Prod.fst).Nodup)
    (huniq : ∀ p ∈ td, ∀ q ∈ td, isFwdref p.2 = true → isFwdref q.2 = true →
      recName p.2 = recName q.2 → p.1 = q.1)
    (hdefs : ∀ p ∈ td, isFwdref p.2 = true →
      ∃ q ∈ td, (hasName q.2 && hasProp q.2 && !isFwdref q.2) = true ∧
        recName q.2 = recName p.2)
    (i : Nat) (t : CvRec) (hmem : (i, t) ∈ td) (hf : isFwdref t = true) :
    (∃ j d, pyDictGet (buildFwdrefsMap td) i = some j ∧
       refRewrite (buildFwdrefsMap td) (i : Int) = (j : Int) ∧ (j, d) ∈ td ∧
       isFwdref d = false ∧ hasProp d = true ∧ recName d = recName t) ∧
    (∀ (b : Bool) (u : CvRec) (a : String),
       a ∈ refAttrList b u.leafKind →
       getAttr (fowardRefs (buildFwdrefsMap td) b u).attrs a =
         rwVal (buildFwdrefsMap td) (getAttr u.attrs a)) ∧
    pyDictGet (resolveFwdrefs td) i = none ∧
    (∀ p ∈ resolveFwdrefs td, isFwdref p.2 = false) := by
  have hget_i : pyDictGet (buildFwdrefs td) (recName t) = some i :=
    buildFwdrefs_get_of_mem huniq hmem hf
  obtain ⟨q, hqtd, hqc, hqname⟩ := hdefs (i, t) hmem hf
  have hq_get : pyDictGet (buildFwdrefs td) (recName q.2) = some i := by
    rw [hqname]
    exact hget_i
  obtain ⟨j, d, hmget, hjd, hdc, hdget⟩ := buildFwdrefsMap_get ⟨q, hqtd, hqc, hq_get⟩
  obtain ⟨t', ht'mem, ht'f, ht'n⟩ := buildFwdrefs_get_some hdget
  have htt : t' = t := nodup_keys_val_eq hkeys ht'mem hmem
  have hdname : recName d = recName t := by rw [← ht'n, htt]
  have hdc2 := hdc
  simp only [Bool.and_eq_true, Bool.not_eq_true'] at hdc2
  have hdelete : pyDictGet (resolveFwdrefs td) i = none :=
    pyDictGet_resolveFwdrefs_none (any_key_of_get_some hmget)
  refine ⟨⟨j, d, hmget, refRewrite_of_get hmget, hjd, hdc2.2, hdc2.1.2, hdname⟩,
    ?_, hdelete, ?_⟩
  · intro b u a ha
    show getAttr ((refAttrList b u.leafKind).foldl (refStep (buildFwdrefsMap td))
      u.attrs) a = _
    exact getAttr_foldl_refStep_mem _ _ _ _ (refAttrList_nodup b u.leafKind) ha
  · intro p hp
    obtain ⟨u0, hu0mem, hu0eq, hnotdel⟩ := resolveFwdrefs_mem hp
    rw [hu0eq, isFwdref_resolveRecord]
    cases hfu0 : isFwdref u0 with
    | false => rfl
    | true =>
      exfalso
      obtain ⟨q', hq'td, hq'c, hq'name⟩ := hdefs (p.1, u0) hu0mem hfu0
      have hgetu0 : pyDictGet (buildFwdrefs td) (recName u0) = some p.1 :=
        buildFwdrefs_get_of_mem huniq hu0mem hfu0
      have hq'get : pyDictGet (buildFwdrefs td) (recName q'.2) = some p.1 := by
        rw [hq'name]
        exact hgetu0
      obtain ⟨j', d', hmget', _, _, _⟩ :=
        buildFwdrefsMap_get ⟨q', hq'td, hq'c, hq'get⟩
      have hany := any_key_of_get_some hmget'
      rw [hnotdel] at hany
      cases hany

/-- C6: get_lf_size returns the declared size for primitives, the decoded
    size for composites, the ARCH_PTR_SIZE for pointers (4 under an I386 DBI
    machine, 8 under AMD64 or IA64), 4 for enums, the base type's size for
    bitfields and -1 for unlisted kinds; but for an LF_MODIFIER it passes
    the raw modifiedType index into the recursive call, where the int fails
    the BasicType check and the access lf.leafKind raises AttributeError
    instead of returning the modified type's size (here 4, the size of
    T_INT4). -/
theorem c6_get_lf_size_modifier_attributeerror :
    getLfSize tpiCtxScenario 8 (.basic tINT4) = .ok 4 ∧
    getLfSize tpiCtxScenario 8 (.record (mkStructRec false "S" 0x1006 8)) = .ok 8 ∧
    getLfSize { tpiCtxScenario with
        ARCH_PTR_SIZE := archPtrSizeFromMachine "IMAGE_FILE_MACHINE_I386" } 8
      (.record ⟨LF_POINTER, [("utype", .vint 0x74), ("ptr_attr", .vint 0)]⟩) = .ok 4 ∧
    getLfSize { tpiCtxScenario with
        ARCH_PTR_SIZE := archPtrSizeFromMachine "IMAGE_FILE_MACHINE_AMD64" } 8
      (.record ⟨LF_POINTER, [("utype", .vint 0x74), ("ptr_attr", .vint 0)]⟩) = .ok 8 ∧
    getLfSize { tpiCtxScenario with
        ARCH_PTR_SIZE := archPtrSizeFromMachine "IMAGE_FILE_MACHINE_IA64" } 8
      (.record ⟨LF_POINTER, [("utype", .vint 0x74), ("ptr_attr", .vint 0)]⟩) = .ok 8 ∧
    getLfSize tpiCtxScenario 8
      (.record ⟨LF_ENUM, [("count", .vint 0), ("property", .vprop false 0),
        ("utype", .vint 0x74), ("fields", .vint 0x1006), ("name", .vstr "E")]⟩)
      = .ok 4 ∧
    getLfSize tpiCtxScenario 8
      (.record ⟨LF_BITFIELD, [("baseType", .vint 0x74), ("length", .vint 3),
        ("position", .vint 1)]⟩) = .ok 4 ∧
    getLfSize tpiCtxScenario 8 (.record ⟨0x000e, []⟩) = .ok (-1) ∧
    getLfSize tpiCtxScenario 8 (.record modifierScenarioRec) = .error .attributeError :=
  ⟨rfl, rfl, rfl, rfl, rfl, rfl, rfl, rfl, rfl⟩

/-- C5: the layout builder does preserve type name and address for ordinary
    types (shown for a primitive at address 4), but for an LF_MODIFIER the
    recursive call drops the address argument, so layout(T, 4) comes back
    with address 0 instead of 4, and its type is the unwrapped type's name
    T_INT4 while type_name(T) is const T_INT4: both halves of the claimed
    identity fail on modifiers. -/
theorem c5_layout_modifier_drops_address :
    (formStructs tpiCtxScenario 8 (.record modifierScenarioRec) 4 true 0).map
        (fun o => o.map (fun s => (s.address, s.type))) = .ok (some (0, "T_INT4")) ∧
    getLfTpname tpiCtxScenario 8 (.record modifierScenarioRec) = .ok "const T_INT4" ∧
    (formStructs tpiCtxScenario 8 (.basic tINT4) 4 true 0).map
        (fun o => o.map (fun s => (s.address, s.type))) = .ok (some (4, "T_INT4")) :=
  ⟨rfl, rfl, rfl⟩

/-- C2 witness: on a table with one fwdref Bar (0x1000), its definition
    (0x1001) and a pointer to the fwdref (0x1002), the resolved table no
    longer contains the fwdref index 0x1000. -/
theorem c2_fwdref_resolution_amended_witness :
    pyDictGet (resolveFwdrefs
      [(0x1000, mkStructRec true "Bar" 0 0),
       (0x1001, mkStructRec false "Bar" 0 8),
       (0x1002, ⟨LF_POINTER, [("utype", .vint 0x1000), ("ptr_attr", .vint 0)]⟩)])
      0x1000 = none := by
  have h := c2_fwdref_resolution_amended
    [(0x1000, mkStructRec true "Bar" 0 0),
     (0x1001, mkStructRec false "Bar" 0 8),
     (0x1002, ⟨LF_POINTER, [("utype", .vint 0x1000), ("ptr_attr", .vint 0)]⟩)]
    (by decide) (by decide) (by decide)
    0x1000 (mkStructRec true "Bar" 0 0) (by simp) (by decide)
  exact h.2.2.1

theorem exceptBind_ok (x : α) (f : α → Except ε β) :
    (Except.ok x : Except ε α) >>= f = f x := rfl

theorem exceptMap_ok (f : α → β) (x : α) :
    Except.map f (Except.ok x : Except ε α) = .ok (f x) := rfl

theorem symbols_get_name {g0 : GlobalSymbolStream} {n : String} {g : DATASYM32}
    (h : pyDictGet g0.symbols n = some g) : g.name = n := by
  unfold GlobalSymbolStream.symbols at h
  rw [pyDictComp_get] at h
  cases hc : ((g0.s_gdata32 ++ g0.s_ldata32).filter (writesKey datasymEntry n)).getLast? with
  | none => rw [hc] at h; simp at h
  | some e =>
    rw [hc] at h
    have he : e = g := by simpa [datasymEntry] using h
    have hne : (g0.s_gdata32 ++ g0.s_ldata32).filter (writesKey datasymEntry n) ≠ [] := by
      intro h0
      rw [h0] at hc
      cases hc
    obtain ⟨e2, he2, hmem⟩ := getLast?_mem_of_ne_nil hne
    rw [hc] at he2
    have hee : e = e2 := by simpa using he2
    subst hee
    have hw := (List.mem_filter.mp hmem).2
    rw [← he]
    simpa [writesKey, datasymEntry] using hw

theorem addrressMapLoop1_get_preserved (pdb : PdbModel) (a : Int) (n : String) :
    ∀ (vs : List DATASYM32) (m : List (Int × String)),
    (∀ v ∈ vs, remapFn pdb v.sect v.offset = .ok a → v.name = n) →
    pyDictGet m a = some n →
    pyDictGet (addrressMapLoop1 pdb vs m) a = some n := by
  intro vs
  induction vs with
  | nil => intro m _ hm; simpa [addrressMapLoop1] using hm
  | cons v t ih =>
    intro m hw hm
    have hw2 : ∀ x ∈ t, remapFn pdb x.sect x.offset = .ok a → x.name = n :=
      fun x hx => hw x (List.mem_cons_of_mem v hx)
    simp only [addrressMapLoop1, List.foldl_cons]
    cases hv : addrMapEntry pdb v with
    | none =>
      simp only [hv]
      exact ih m hw2 hm
    | some kv =>
      obtain ⟨k1, k2⟩ := kv
      simp only [hv]
      refine ih (pyDictInsert m k1 k2) hw2 ?_
      rw [pyDictGet_insert]
      by_cases hk : a = k1
      · rw [if_pos hk]
        unfold addrMapEntry at hv
        cases hr : remapFn pdb v.sect v.offset with
        | error e => rw [hr] at hv; simp at hv
        | ok x =>
          rw [hr] at hv
          have hx : x = k1 ∧ v.name = k2 := by simpa using hv
          have hnn : v.name = n := hw v (List.mem_cons_self v t)
            (by rw [hx.1, ← hk] at hr; exact hr)
          rw [← hx.2, hnn]
      · rw [if_neg hk]
        exact hm

theorem addrressMapLoop1_get_writer (pdb : PdbModel) (a : Int) (n : String) :
    ∀ (vs : List DATASYM32) (m : List (Int × String)),
    (∀ v ∈ vs, remapFn pdb v.sect v.offset = .ok a → v.name = n) →
    (∃ g ∈ vs, remapFn pdb g.sect g.offset = .ok a) →
    pyDictGet (addrressMapLoop1 pdb vs m) a = some n := by
  intro vs
  induction vs with
  | nil => intro m _ hex; obtain ⟨g, hg, _⟩ := hex; cases hg
  | cons v t ih =>
    intro m hw hex
    have hw2 : ∀ x ∈ t, remapFn pdb x.sect x.offset = .ok a → x.name = n :=
      fun x hx => hw x (List.mem_cons_of_mem v hx)
    by_cases hext : ∃ g ∈ t, remapFn pdb g.sect g.offset = .ok a
    · simp only [addrressMapLoop1, List.foldl_cons]
      cases hv : addrMapEntry pdb v with
      | none =>
        simp only [hv]
        exact ih _ hw2 hext
      | some kv =>
        simp only [hv]
        exact ih _ hw2 hext
    · obtain ⟨g, hg, hga⟩ := hex
      have hgv : g = v := by
        rcases List.mem_cons.mp hg with h1 | h1
        · exact h1
        · exact absurd ⟨g, h1, hga⟩ hext
      subst hgv
      have hnn : g.name = n := hw g (List.mem_cons_self g t) hga
      simp only [addrressMapLoop1, List.foldl_cons]
      have hv : addrMapEntry pdb g = some (a, g.name) := by
        unfold addrMapEntry
        rw [hga]
      simp only [hv]
      apply addrressMapLoop1_get_preserved pdb a n t _ hw2
      rw [pyDictGet_insert, if_pos rfl, hnn]

theorem addrressMapMod_get_preserved (pdb : PdbModel) (a : Int) (n : String) :
    ∀ (ss : List ModSym) (m : List (Int × String)),
    (∀ s ∈ ss, ∀ seg off, s.seg = some seg → s.off = some off →
      ∃ x, remapFn pdb seg off = .ok x ∧ x ≠ a) →
    pyDictGet m a = some n →
    ∃ m2, addrressMapMod pdb ss m = .ok m2 ∧ pyDictGet m2 a = some n := by
  intro ss
  induction ss with
  | nil => intro m _ hm; exact ⟨m, rfl, hm⟩
  | cons s rest ih =>
    intro m hss hm
    have hss2 : ∀ x ∈ rest, ∀ seg off, x.seg = some seg → x.off = some off →
        ∃ x2, remapFn pdb seg off = .ok x2 ∧ x2 ≠ a :=
      fun x hx => hss x (List.mem_cons_of_mem s hx)
    cases hseg : s.seg with
    | none =>
      have hstep : addrressMapMod pdb (s :: rest) m = addrressMapMod pdb rest m := by
        simp only [addrressMapMod, hseg]
      rw [hstep]
      exact ih m hss2 hm
    | some seg =>
      cases hoff : s.off with
      | none =>
        have hstep : addrressMapMod pdb (s :: rest) m = addrressMapMod pdb rest m := by
          simp only [addrressMapMod, hseg, hoff]
        rw [hstep]
        exact ih m hss2 hm
      | some off =>
        obtain ⟨x, hx, hxa⟩ := hss s (List.mem_cons_self s rest) seg off hseg hoff
        have hstep : addrressMapMod pdb (s :: rest) m
            = addrressMapMod pdb rest (pyDictInsert m x s.name) := by
          simp only [addrressMapMod, hseg, hoff, hx, exceptBind_ok]
        rw [hstep]
        refine ih (pyDictInsert m x s.name) hss2 ?_
        rw [pyDictGet_insert, if_neg (fun h => hxa h.symm)]
        exact hm

theorem addrressMapLoop2_get_preserved (pdb : PdbModel) (a : Int) (n : String) :
    ∀ (rs : List REFSYM2) (m : List (Int × String)),
    (∀ r ∈ rs, ∃ module, pyGetI pdb.modules ((r.ximod : Int) - 1) = .ok module ∧
      ∀ s ∈ module, ∀ seg off, s.seg = some seg → s.off = some off →
        ∃ x, remapFn pdb seg off = .ok x ∧ x ≠ a) →
    pyDictGet m a = some n →
    ∃ m2, addrressMapLoop2 pdb rs m = .ok m2 ∧ pyDictGet m2 a = some n := by
  intro rs
  induction rs with
  | nil => intro m _ hm; exact ⟨m, rfl, hm⟩
  | cons r rest ih =>
    intro m hrs hm
    obtain ⟨module, hmod, hall⟩ := hrs r (List.mem_cons_self r rest)
    obtain ⟨m2, hm2, hget2⟩ := addrressMapMod_get_preserved pdb a n module m hall hm
    obtain ⟨m3, hm3, hget3⟩ := ih m2
      (fun x hx => hrs x (List.mem_cons_of_mem r hx)) hget2
    refine ⟨m3, ?_, hget3⟩
    simp only [addrressMapLoop2, hmod, exceptBind_ok, hm2, hm3]

/-- C7: corrected round trip.  When the name n resolves through the global
    data index to a symbol g whose section and offset remap to address a and
    whose type index resolves, and no other data symbol remaps to a, and
    every module symbol merged by the procref pass remaps successfully to an
    address other than a, then get_lf_from_name(n) returns that type at a
    and get_refname_from_offset(a) returns Some n.  (The unconditional claim
    is refuted by c7_roundtrip_counterexample: a second symbol colliding on
    the same address overwrites the name.) -/
theorem c7_resolve_roundtrip_amended (pdb : PdbModel) (n : String) (g : DATASYM32)
    (a : Int) (lf : LfVal)
    (hmem : pyDictGet pdb.glb.symbols n = some g)
    (hremap : remapFn pdb g.sect g.offset = .ok a)
    (htid : getLfFromTid pdb.tpi g.typind = .ok lf)
    (huniq : ∀ v ∈ pdb.glb.symbols.map Prod.snd,
      remapFn pdb v.sect v.offset = .ok a → v.name = n)
    (hmods : ∀ r ∈ pdb.glb.refsymbols.map Prod.snd,
      ∃ module, pyGetI pdb.modules ((r.ximod : Int) - 1) = .ok module ∧
        ∀ s ∈ module, ∀ seg off, s.seg = some seg → s.off = some off →
          ∃ x, remapFn pdb seg off = .ok x ∧ x ≠ a) :
    pdbGetLfFromName pdb n = .ok (some (.tpi lf), a) ∧
    getRefnameFromOffset pdb a = .ok (some n) := by
  constructor
  · have hglb : getGlb pdb n = .ok (some (.tpi lf), a) := by
      simp only [getGlb, hmem, hremap, htid, exceptBind_ok]
    simp [pdbGetLfFromName, hglb, exceptBind_ok]
  · have hg : g ∈ pdb.glb.symbols.map Prod.snd :=
      List.mem_map_of_mem Prod.snd (pyDictGet_mem_of_some hmem)
    have h1 : pyDictGet (addrressMapLoop1 pdb (pdb.glb.symbols.map Prod.snd) []) a
        = some n :=
      addrressMapLoop1_get_writer pdb a n _ [] huniq ⟨g, hg, hremap⟩
    obtain ⟨m2, hm2, hget2⟩ := addrressMapLoop2_get_preserved pdb a n
      (pdb.glb.refsymbols.map Prod.snd) _ hmods h1
    simp only [getRefnameFromOffset, addrressMap, hm2, exceptMap_ok, hget2]

/-- C7 counterexample: in pdbScenario the symbols g1 and g2 share section 1
    and offset 0x40, so both remap to 0x1040; the address map keeps the last
    writer g2, and the round trip fails for g1 even though g1 is in the
    global data index and resolves to 0x1040. -/
theorem c7_roundtrip_counterexample :
    (pyDictGet pdbScenario.glb.symbols "g1").isSome = true ∧
    pdbGetLfFromName pdbScenario "g1" = .ok (some (.tpi (.basic tINT4)), 0x1040) ∧
    getRefnameFromOffset pdbScenario 0x1040 = .ok (some "g2") ∧
    getRefnameFromOffset pdbScenario 0x1040 ≠ .ok (some "g1") :=
  ⟨rfl, rfl, rfl, by decide⟩

/-- C7 witness: on the one-symbol wpdb7 the hypotheses of the amended round
    trip hold for g1 at address 0x1040. -/
theorem c7_resolve_roundtrip_amended_witness :
    pdbGetLfFromName wpdb7 "g1" = .ok (some (.tpi (.basic tINT4)), 0x1040) ∧
    getRefnameFromOffset wpdb7 0x1040 = .ok (some "g1") :=
  c7_resolve_roundtrip_amended wpdb7 "g1" ⟨0x74, 0x40, 1, "g1"⟩ 0x1040 (.basic tINT4)
    rfl rfl rfl (by decide)
    (by
      intro r hr
      rw [show wpdb7.glb.refsymbols.map Prod.snd = ([] : List REFSYM2) from rfl] at hr
      cases hr)

/-- C9: a name present in none of the resolver's indexes (global data dict,
    procref dict, UDT dict, TPI primitive table, TPI structs dict) makes
    get_lf_from_name return (None, 0) and raise no exception. -/
theorem c9_unknown_name_none_zero (pdb : PdbModel) (n : String)
    (h1 : pyDictGet pdb.glb.symbols n = none)
    (h2 : pyDictGet pdb.glb.refsymbols n = none)
    (h3 : pyDictGet pdb.glb.user_defines n = none)
    (h4 : eBaseTypes.find? (fun p => p.2.name = n) = none)
    (h5 : pyDictGet (structs pdb.tpi) n = none) :
    pdbGetLfFromName pdb n = .ok (none, 0) := by
  have hglb : getGlb pdb n = .ok (none, 0) := by
    simp only [getGlb, h1]
  have hproc : getProc pdb n = .ok (none, 0) := by
    simp only [getProc, h2]
  have hudt : getUdt pdb n = .ok (none, 0) := by
    simp [getUdt, h3]
  have hstruct : getStruct pdb n = .ok (none, 0) := by
    simp only [getStruct, tpiGetLfFromName, h4, h5]
  simp [pdbGetLfFromName, hglb, hproc, hudt, hstruct, exceptBind_ok]

/-- C9 witness: the name zzz is absent from every index of pdbScenario, and
    the chained lookup returns (None, 0). -/
theorem c9_unknown_name_none_zero_witness :
    pdbGetLfFromName pdbScenario "zzz" = .ok (none, 0) :=
  c9_unknown_name_none_zero pdbScenario "zzz" rfl rfl rfl rfl rfl

end PdbParse
